import Mathlib

/-!
# Levelling.io backend — room-scoped authoritative state engine

A shallow embedding of `src/levelling_io/backend/src/socket/handlers.ts`:
the in-memory model of rooms, players, farm objects (collectibles) and
obstacles, together with the socket event handlers that mutate it
(`joinGame`, `playerMove`, `disconnect`, `playerShoot`, `playerHit`,
`farmObjectHit`, `collectResource`) and the deferred callbacks they
schedule (the respawn timer and the farm-repopulation timer, modelled as
explicit trace events).

Modelling conventions:
* JavaScript `Map` objects become association lists (`AMap`) with
  update-in-place `set`, `delete`, first-match `get`; keys are unique on
  every state reachable from the initial (empty) state.
* Scores and collectible values are `Int`: every mutation the server
  performs on them is integer arithmetic (`Math.floor(score * 0.5)` on an
  integer score is integer floor division).
* Coordinates are `ℚ` (the handlers only add, subtract, multiply and
  compare them; `Math.sqrt(d) > 120` is rendered as `d > 120 ^ 2`).
* The fresh random collectible ids `farm-${Date.now()}-${random}` are
  modelled by a monotone counter `nextFarmId` held in the server state
  (the code relies on these ids never colliding with a live id).
* Calls to `Math.random()` (spawn positions, respawn positions, chosen
  collectible types) are inputs: each event carries the values the random
  number generator would have produced.  The rejection-sampling loop that
  chooses a collectible position is modelled separately as
  `placeFarmPosition` over an explicit candidate stream; the spawn oracle
  of a trace event stands for that loop's eventual result.
-/

/-- Association-list rendering of a JavaScript `Map`. -/
def AMap (α β : Type) : Type := List (α × β)

namespace AMap

variable {α β : Type} [DecidableEq α]

instance {α β : Type} [DecidableEq α] [DecidableEq β] : DecidableEq (AMap α β) :=
  inferInstanceAs (DecidableEq (List (α × β)))

instance {α β : Type} [Repr α] [Repr β] : Repr (AMap α β) :=
  inferInstanceAs (Repr (List (α × β)))

instance {α β : Type} : Membership (α × β) (AMap α β) :=
  inferInstanceAs (Membership (α × β) (List (α × β)))

/-- The empty map (`new Map()`). -/
def empty : AMap α β := []

/-- Lookup `map.get(k)`: first entry whose key is `k`. -/
def get : AMap α β → α → Option β
  | [], _ => none
  | (k, v) :: rest, a => if k = a then some v else get rest a

/-- Update `map.set(k, v)`: update the entry in place, or append a new one. -/
def set : AMap α β → α → β → AMap α β
  | [], a, b => [(a, b)]
  | (k, v) :: rest, a, b => if k = a then (a, b) :: rest else (k, v) :: set rest a b

/-- Removal `map.delete(k)`: remove the entry for `k` (every entry with key `k`;
on the duplicate-free lists the server actually builds this is the single
entry a JavaScript `Map` holds). -/
def del : AMap α β → α → AMap α β
  | [], _ => []
  | (k, v) :: rest, a => if k = a then del rest a else (k, v) :: del rest a

/-- Test `map.has(k)`. -/
def has (m : AMap α β) (a : α) : Bool := (m.get a).isSome

/-- Count `map.size`. -/
def size (m : AMap α β) : Nat := m.length

/-- Listing `Array.from(map.values())`. -/
def values (m : AMap α β) : List β := m.map (fun e => e.2)

@[simp] theorem get_empty {a : α} : (empty : AMap α β).get a = none := rfl

@[simp] theorem size_empty : (empty : AMap α β).size = 0 := rfl

@[simp] theorem get_set_self (m : AMap α β) (a : α) (b : β) :
    (m.set a b).get a = some b := by
  induction m with
  | nil => simp [set, get]
  | cons e rest ih =>
      obtain ⟨k, v⟩ := e
      by_cases h : k = a
      · simp [set, get, h]
      · simp [set, get, h, ih]

theorem get_set_ne (m : AMap α β) {a c : α} (b : β) (h : a ≠ c) :
    (m.set a b).get c = m.get c := by
  induction m with
  | nil => simp [set, get, h]
  | cons e rest ih =>
      obtain ⟨k, v⟩ := e
      by_cases hk : k = a
      · subst hk
        simp [set, get, h, ih]
      · by_cases hc : k = c
        · simp [set, get, hk, hc, Ne.symm h]
        · simp [set, get, hk, hc, ih]

/-- Lookup after `set`, in one equation. -/
theorem get_set (m : AMap α β) (a c : α) (b : β) :
    (m.set a b).get c = if a = c then some b else m.get c := by
  by_cases h : a = c
  · subst h; simp
  · simp [h, get_set_ne m b h]

@[simp] theorem get_del_self (m : AMap α β) (a : α) :
    (m.del a).get a = none := by
  induction m with
  | nil => simp [del, get]
  | cons e rest ih =>
      obtain ⟨k, v⟩ := e
      by_cases h : k = a
      · simp [del, get, h, ih]
      · simp [del, get, h, ih]

theorem get_del_ne (m : AMap α β) {a c : α} (h : a ≠ c) :
    (m.del a).get c = m.get c := by
  induction m with
  | nil => simp [del]
  | cons e rest ih =>
      obtain ⟨k, v⟩ := e
      by_cases hk : k = a
      · subst hk
        simp [del, get, h, ih]
      · by_cases hc : k = c
        · simp [del, get, hk, hc, Ne.symm h]
        · simp [del, get, hk, hc, ih]

/-- Lookup after `del`, in one equation. -/
theorem get_del (m : AMap α β) (a c : α) :
    (m.del a).get c = if a = c then none else m.get c := by
  by_cases h : a = c
  · subst h; simp
  · simp [h, get_del_ne m h]

end AMap

/-! ## Data model (`handlers.ts`, interfaces and module-level registries) -/

/-- A `{x, y}` coordinate pair. -/
structure Pos where
  x : ℚ
  y : ℚ
deriving DecidableEq, Repr

/-- The `interface PlayerData` record (`handlers.ts:3`). -/
structure PlayerData where
  id : String
  name : String
  color : Int
  position : Pos
  velocity : Pos
  score : Int
  isAlive : Bool
  respawnTime : Option Int
deriving DecidableEq, Repr

/-- The obstacle id template literals: `obstacle-L-${baseX}-${baseY}-${i}`
for L-shape points and `obstacle-center-${i}` for the centre blocks,
rendered injectively; `grid` ids name hypothetical layouts supplied as
inputs when analysing the placement loop. -/
inductive ObstacleId
  | lpoint (baseX baseY : ℚ) (i : Nat)
  | center (i : Nat)
  | grid (k j : Nat)
deriving DecidableEq, Repr

/-- An obstacle point `{id, x, y, part}` as pushed by `generateObstacles`. -/
structure Obstacle where
  id : ObstacleId
  x : ℚ
  y : ℚ
  part : String
deriving DecidableEq, Repr

/-- The `interface FarmObject` record (`handlers.ts:15`); ids are modelled by the
fresh-id counter (see the header). -/
structure FarmObject where
  id : Nat
  position : Pos
  type : String
  value : Int
deriving DecidableEq, Repr

/-- Delivery scope of an outbound notification: `socket.to(roomId).emit`
or the echo `socket.emit` to the originating connection. -/
inductive Scope
  | room (roomId : String)
  | originator
deriving DecidableEq, Repr

/-- The outbound notification payloads the handlers emit. -/
inductive Payload
  | currentPlayers (players : List PlayerData)
  | obstaclesUpdate (obs : List Obstacle)
  | farmObjectsUpdate (objs : List FarmObject)
  | playerJoined (playerId name : String) (color : Int) (position velocity : Pos)
      (score : Int) (isAlive : Bool)
  | playerMoved (playerId : String) (position : Pos) (velocity : Option Pos)
  | playerLeft (playerId : String) (name : Option String)
  | playerShot (playerId : String) (direction position : Pos)
  | playerKilled (killerId targetId : String) (killerScore targetScore pointsStolen : Int)
  | playerRespawned (playerId : String) (position : Pos)
  | farmObjectDestroyed (objectId : Nat) (playerId : String) (playerScore : Int)
deriving DecidableEq, Repr

/-- One `emit` call. -/
structure Emission where
  scope : Scope
  payload : Payload
deriving DecidableEq, Repr

/-- The module-level registries `rooms`, `globalFarmObjects`, `obstacles`,
plus the fresh-id counter standing for `Date.now()`/`Math.random()` id
generation. -/
structure ServerState where
  rooms : AMap String (AMap String PlayerData)
  globalFarmObjects : AMap String (AMap Nat FarmObject)
  obstacles : AMap String (List Obstacle)
  nextFarmId : Nat
deriving DecidableEq, Repr

/-- The registries start empty. -/
def initialState : ServerState :=
  { rooms := AMap.empty, globalFarmObjects := AMap.empty,
    obstacles := AMap.empty, nextFarmId := 0 }

/-! ## Obstacle generation (`generateObstacles` / `createLShape`) -/

/-- The rotation arithmetic applied inside `createLShape` to a point
`(x, y)` about the base `(baseX, baseY)`: `rotation = 1` is 90°,
`2` is 180°, `3` is 270°, anything else leaves the point unchanged. -/
def rotatePoint (rotation : Nat) (baseX baseY x y : ℚ) : ℚ × ℚ :=
  if rotation = 1 then (baseX - (y - baseY), baseY + (x - baseX))
  else if rotation = 2 then (baseX - (x - baseX), baseY - (y - baseY))
  else if rotation = 3 then (baseX + (y - baseY), baseY - (x - baseX))
  else (x, y)

/-- One stem point of the L (`for i = 0; i < 3`): `(baseX, baseY + i*60)`
rotated, with part tag `stem`. -/
def lShapeStemPoint (baseX baseY : ℚ) (rotation i : Nat) : Obstacle :=
  let q := rotatePoint rotation baseX baseY baseX (baseY + (i : ℚ) * 60)
  { id := ObstacleId.lpoint baseX baseY i, x := q.1, y := q.2, part := "stem" }

/-- One foot point of the L (`for i = 1; i < 3`):
`(baseX + i*60, baseY + 2*60)` rotated, with part tag `foot` and id
index `i + 3`. -/
def lShapeFootPoint (baseX baseY : ℚ) (rotation i : Nat) : Obstacle :=
  let q := rotatePoint rotation baseX baseY (baseX + (i : ℚ) * 60) (baseY + 2 * 60)
  { id := ObstacleId.lpoint baseX baseY (i + 3), x := q.1, y := q.2, part := "foot" }

/-- The body of `createLShape(baseX, baseY, rotation)`: three stem points followed by
two foot points. -/
def createLShape (baseX baseY : ℚ) (rotation : Nat) : List Obstacle :=
  ((List.range 3).map (fun i => lShapeStemPoint baseX baseY rotation i)) ++
    ((List.range 2).map (fun i => lShapeFootPoint baseX baseY rotation (i + 1)))

/-- The five fixed centre blocks (`centerObstacles.forEach((pos, i))`),
with their enumeration indices unrolled. -/
def centerObstacleList : List Obstacle :=
  [{ id := ObstacleId.center 0, x := 1000, y := 750, part := "center" },
   { id := ObstacleId.center 1, x := 1000, y := 650, part := "center" },
   { id := ObstacleId.center 2, x := 1000, y := 850, part := "center" },
   { id := ObstacleId.center 3, x := 900, y := 750, part := "center" },
   { id := ObstacleId.center 4, x := 1100, y := 750, part := "center" }]

/-- The layout `generateObstacles` stores for a fresh room: four L-shapes,
one per quadrant with rotations 0/90°/270°/180°, then the centre blocks.
The body uses no randomness, so this is a constant. -/
def obstacleLayout : List Obstacle :=
  createLShape 300 300 0 ++ createLShape 1700 300 1 ++
    createLShape 300 1100 3 ++ createLShape 1700 1100 2 ++ centerObstacleList

/-- The generator `generateObstacles(gameId)`: generate the layout only if the room has
none recorded, then return the room's (possibly pre-existing) layout. -/
def generateObstacles (s : ServerState) (gameId : String) :
    ServerState × List Obstacle :=
  let s' := if s.obstacles.has gameId then s
            else { s with obstacles := s.obstacles.set gameId obstacleLayout }
  (s', (s'.obstacles.get gameId).getD [])

/-! ## Farm object generation (`generateFarmObjects`) -/

/-- The `typesAndValues` table. -/
def farmTypesAndValues : List (String × Int) :=
  [("crystal", 5), ("coin", 1), ("gem", 10)]

/-- Build one farm object from a spawn choice: the random type index
(`Math.floor(Math.random() * 3)`, hence taken mod 3) and the position the
placement loop settled on. -/
def mkFarmObject (id : Nat) (choice : Nat × Pos) : FarmObject :=
  let tv := farmTypesAndValues.getD (choice.1 % 3) ("coin", 1)
  { id := id, position := choice.2, type := tv.1, value := tv.2 }

/-- The `for (let i = 0; i < toCreate; i++)` spawn loop: each iteration
creates one object under the next fresh id, drawing its random choice
from the oracle stream. -/
def spawnFarmObjects :
    AMap Nat FarmObject → Nat → List (Nat × Pos) → Nat → AMap Nat FarmObject
  | m, _, _, 0 => m
  | m, nextId, oracle, n + 1 =>
      spawnFarmObjects (m.set nextId (mkFarmObject nextId (oracle.headD (0, ⟨0, 0⟩))))
        (nextId + 1) oracle.tail n

/-- The generator `generateFarmObjects(gameId)` (`count` defaults to 10 and callers
never override it): ensure the room's farm map exists, top its population
up to 10, and broadcast the refreshed list when something was created and
the room currently exists. -/
def generateFarmObjects (s : ServerState) (gameId : String)
    (oracle : List (Nat × Pos)) : ServerState × List Emission :=
  let s1 := if s.globalFarmObjects.has gameId then s
            else { s with globalFarmObjects := s.globalFarmObjects.set gameId AMap.empty }
  let m := (s1.globalFarmObjects.get gameId).getD AMap.empty
  if m.size < 10 then
    let toCreate := 10 - m.size
    let m2 := spawnFarmObjects m s1.nextFarmId oracle toCreate
    let s2 := { s1 with globalFarmObjects := s1.globalFarmObjects.set gameId m2,
                        nextFarmId := s1.nextFarmId + toCreate }
    if 0 < toCreate ∧ s1.rooms.has gameId then
      (s2, [⟨Scope.room gameId, Payload.farmObjectsUpdate m2.values⟩,
            ⟨Scope.originator, Payload.farmObjectsUpdate m2.values⟩])
    else (s2, [])
  else (s1, [])

/-! ## Event handlers (`socket.on(...)`) and deferred callbacks -/

/-- The record inserted for a connection joining a room for the first
time: default spawn position, zero score, alive. -/
def newPlayer (sid name : String) (color : Int) : PlayerData :=
  { id := sid, name := name, color := color, position := ⟨400, 300⟩,
    velocity := ⟨0, 0⟩, score := 0, isAlive := true, respawnTime := none }

/-- Handler `socket.on('joinGame')`: create the room if absent, insert the player
(if not already a member) with the default spawn record, generate
obstacles and farm objects as needed, then send the initial sync to the
joiner and announce the arrival to the room. -/
def stepJoinGame (s : ServerState) (sid gameId name : String) (color : Int)
    (oracle : List (Nat × Pos)) : ServerState × List Emission :=
  let s1 := if s.rooms.has gameId then s
            else { s with rooms := s.rooms.set gameId AMap.empty }
  match s1.rooms.get gameId with
  | none => (s1, [])
  | some roomPlayers0 =>
      let roomPlayers :=
        if roomPlayers0.has sid then roomPlayers0
        else roomPlayers0.set sid (newPlayer sid name color)
      let s2 := { s1 with rooms := s1.rooms.set gameId roomPlayers }
      let og := generateObstacles s2 gameId
      let gf := generateFarmObjects og.1 gameId oracle
      let tailEms :=
        [⟨Scope.originator, Payload.currentPlayers roomPlayers.values⟩,
         ⟨Scope.originator, Payload.obstaclesUpdate og.2⟩] ++
        (match gf.1.globalFarmObjects.get gameId with
         | some m => [⟨Scope.originator, Payload.farmObjectsUpdate m.values⟩]
         | none => []) ++
        [⟨Scope.room gameId,
          Payload.playerJoined sid name color ⟨400, 300⟩ ⟨0, 0⟩ 0 true⟩]
      (gf.1, gf.2 ++ tailEms)

/-- Handler `socket.on('playerMove')`: overwrite the mover's position, overwrite
velocity only when supplied, and broadcast the movement to the rest of
the room (even when no room or player record was found). -/
def stepPlayerMove (s : ServerState) (sid gameId : String) (position : Pos)
    (velocity : Option Pos) : ServerState × List Emission :=
  let s' :=
    match s.rooms.get gameId with
    | none => s
    | some roomPlayers =>
        match roomPlayers.get sid with
        | none => s
        | some player =>
            let player1 := { player with position := position }
            let player2 := match velocity with
                           | some v => { player1 with velocity := v }
                           | none => player1
            { s with rooms := s.rooms.set gameId (roomPlayers.set sid player2) }
  (s', [⟨Scope.room gameId, Payload.playerMoved sid position velocity⟩])

/-- The `rooms.forEach` body of `socket.on('disconnect')`: in each room
holding the connection, delete the player, drop the room when it became
empty, and emit `playerLeft` — whose `name` field reads the player's
record from the map after the deletion. -/
def disconnectRooms (sid : String) :
    AMap String (AMap String PlayerData) →
      AMap String (AMap String PlayerData) × List Emission
  | [] => ([], [])
  | (roomId, roomPlayers) :: rest =>
      let r := disconnectRooms sid rest
      if roomPlayers.has sid then
        let roomPlayers' := roomPlayers.del sid
        let em : Emission :=
          ⟨Scope.room roomId,
           Payload.playerLeft sid ((roomPlayers'.get sid).map (fun p => p.name))⟩
        if roomPlayers'.size = 0 then (r.1, em :: r.2)
        else ((roomId, roomPlayers') :: r.1, em :: r.2)
      else ((roomId, roomPlayers) :: r.1, r.2)

/-- Handler `socket.on('disconnect')`. -/
def stepDisconnect (s : ServerState) (sid : String) : ServerState × List Emission :=
  let r := disconnectRooms sid s.rooms
  ({ s with rooms := r.1 }, r.2)

/-- Handler `socket.on('playerShoot')`: pure relay, no state change. -/
def stepPlayerShoot (s : ServerState) (sid gameId : String)
    (direction position : Pos) : ServerState × List Emission :=
  (s, [⟨Scope.room gameId, Payload.playerShot sid direction position⟩])

/-- Handler `socket.on('playerHit')`: reject self-hits; otherwise, when shooter
and target are members and the target is alive, steal
`Math.floor(target.score * 0.5)` points, award the flat 20-point bonus,
clamp the target's score at zero, mark the target dead with respawn
deadline `now + 3000`, and emit `playerKilled` to room and originator. -/
def stepPlayerHit (s : ServerState) (gameId shooterId targetId : String)
    (now : Int) : ServerState × List Emission :=
  if shooterId = targetId then (s, [])
  else
    match s.rooms.get gameId with
    | none => (s, [])
    | some roomPlayers =>
        match roomPlayers.get shooterId, roomPlayers.get targetId with
        | some shooter, some target =>
            if target.isAlive then
              let pointsToSteal : Int := Int.fdiv target.score 2
              let shooter' := { shooter with score := shooter.score + (20 + pointsToSteal) }
              let targetScore0 := target.score - pointsToSteal
              let targetScore := if targetScore0 < 0 then 0 else targetScore0
              let target' := { target with score := targetScore, isAlive := false,
                                           respawnTime := some (now + 3000) }
              let roomPlayers' := (roomPlayers.set shooterId shooter').set targetId target'
              ({ s with rooms := s.rooms.set gameId roomPlayers' },
               [⟨Scope.room gameId,
                 Payload.playerKilled shooterId targetId shooter'.score target'.score pointsToSteal⟩,
                ⟨Scope.originator,
                 Payload.playerKilled shooterId targetId shooter'.score target'.score pointsToSteal⟩])
            else (s, [])
        | some _, none => (s, [])
        | none, some _ => (s, [])
        | none, none => (s, [])

/-- The `setTimeout` respawn callback scheduled by `playerHit`
(`handlers.ts:409`): if the room and the target still exist, set the
target alive at a fresh random position with zero velocity and emit
`playerRespawned`; otherwise do nothing. -/
def stepRespawnTimer (s : ServerState) (gameId targetId : String) (pos : Pos) :
    ServerState × List Emission :=
  match s.rooms.get gameId with
  | none => (s, [])
  | some roomPlayers =>
      match roomPlayers.get targetId with
      | none => (s, [])
      | some player =>
          let player' := { player with isAlive := true, position := pos,
                                       velocity := ⟨0, 0⟩ }
          ({ s with rooms := s.rooms.set gameId (roomPlayers.set targetId player') },
           [⟨Scope.room gameId, Payload.playerRespawned targetId pos⟩,
            ⟨Scope.originator, Payload.playerRespawned targetId pos⟩])

/-- Handler `socket.on('farmObjectHit')`: when the room's farm map, the named
object, the room and the sender's player record all exist, credit the
object's value, delete the object, and emit `farmObjectDestroyed` to room
and originator. -/
def stepFarmObjectHit (s : ServerState) (sid gameId : String) (objectId : Nat) :
    ServerState × List Emission :=
  match s.globalFarmObjects.get gameId with
  | none => (s, [])
  | some roomFarmObjects =>
      match roomFarmObjects.get objectId with
      | none => (s, [])
      | some farmObject =>
          match s.rooms.get gameId with
          | none => (s, [])
          | some roomPlayers =>
              match roomPlayers.get sid with
              | none => (s, [])
              | some player =>
                  let player' := { player with score := player.score + farmObject.value }
                  ({ s with
                      rooms := s.rooms.set gameId (roomPlayers.set sid player'),
                      globalFarmObjects :=
                        s.globalFarmObjects.set gameId (roomFarmObjects.del objectId) },
                   [⟨Scope.room gameId, Payload.farmObjectDestroyed objectId sid player'.score⟩,
                    ⟨Scope.originator, Payload.farmObjectDestroyed objectId sid player'.score⟩])

/-- Handler `socket.on('collectResource')`: identical body to `farmObjectHit`
with the object named by `resourceId`. -/
def stepCollectResource (s : ServerState) (sid gameId : String) (resourceId : Nat) :
    ServerState × List Emission :=
  match s.globalFarmObjects.get gameId with
  | none => (s, [])
  | some roomFarmObjects =>
      match roomFarmObjects.get resourceId with
      | none => (s, [])
      | some farmObject =>
          match s.rooms.get gameId with
          | none => (s, [])
          | some roomPlayers =>
              match roomPlayers.get sid with
              | none => (s, [])
              | some player =>
                  let player' := { player with score := player.score + farmObject.value }
                  ({ s with
                      rooms := s.rooms.set gameId (roomPlayers.set sid player'),
                      globalFarmObjects :=
                        s.globalFarmObjects.set gameId (roomFarmObjects.del resourceId) },
                   [⟨Scope.room gameId, Payload.farmObjectDestroyed resourceId sid player'.score⟩,
                    ⟨Scope.originator, Payload.farmObjectDestroyed resourceId sid player'.score⟩])

/-- An inbound client event or a deferred callback firing.  The trailing
oracle arguments carry the values `Math.random()`/`Date.now()` would have
produced. -/
inductive Event
  | joinGame (sid gameId name : String) (color : Int) (oracle : List (Nat × Pos))
  | playerMove (sid gameId : String) (position : Pos) (velocity : Option Pos)
  | disconnect (sid : String)
  | playerShoot (sid gameId : String) (direction position : Pos)
  | playerHit (sid gameId shooterId targetId : String) (now : Int)
  | farmObjectHit (sid gameId : String) (objectId : Nat)
  | collectResource (sid gameId : String) (resourceId : Nat)
  | respawnTimer (gameId targetId : String) (pos : Pos)
  | repopulateTimer (gameId : String) (oracle : List (Nat × Pos))
deriving DecidableEq, Repr

/-- Dispatch one event to its handler.  The repopulation timer
(`setTimeout(() => generateFarmObjects(gameId), 2000)`) is the bare
generator call. -/
def stepEvent (s : ServerState) : Event → ServerState × List Emission
  | Event.joinGame sid gameId name color oracle => stepJoinGame s sid gameId name color oracle
  | Event.playerMove sid gameId position velocity => stepPlayerMove s sid gameId position velocity
  | Event.disconnect sid => stepDisconnect s sid
  | Event.playerShoot sid gameId direction position => stepPlayerShoot s sid gameId direction position
  | Event.playerHit _sid gameId shooterId targetId now => stepPlayerHit s gameId shooterId targetId now
  | Event.farmObjectHit sid gameId objectId => stepFarmObjectHit s sid gameId objectId
  | Event.collectResource sid gameId resourceId => stepCollectResource s sid gameId resourceId
  | Event.respawnTimer gameId targetId pos => stepRespawnTimer s gameId targetId pos
  | Event.repopulateTimer gameId oracle => generateFarmObjects s gameId oracle

/-- Run a sequence of events, accumulating every emission in order. -/
def runFrom (s : ServerState) : List Event → ServerState × List Emission
  | [] => (s, [])
  | e :: rest =>
      let r := stepEvent s e
      let r' := runFrom r.1 rest
      (r'.1, r.2 ++ r'.2)

/-- Run a sequence of events from the initial (empty) registries. -/
def runTrace (events : List Event) : ServerState × List Emission :=
  runFrom initialState events

/-! ## Map well-formedness and further lookup lemmas

A JavaScript `Map` holds at most one entry per key; association lists
reachable from the empty registries satisfy `KeysNodup`, which some
characterisations below require. -/

namespace AMap

variable {α β : Type} [DecidableEq α]

/-- Keys are pairwise distinct, as in a real JavaScript `Map`. -/
def KeysNodup (m : AMap α β) : Prop := (m.map Prod.fst).Nodup

instance (m : AMap α β) : Decidable (KeysNodup m) := by
  unfold KeysNodup; infer_instance

theorem get_eq_none_iff (m : AMap α β) (a : α) :
    m.get a = none ↔ a ∉ m.map Prod.fst := by
  induction m with
  | nil => simp [get]
  | cons e rest ih =>
      obtain ⟨k, v⟩ := e
      by_cases h : k = a
      · simp [get, h]
      · simp [get, h, ih, Ne.symm h]

theorem keys_set (m : AMap α β) (a : α) (b : β) :
    (m.set a b).map Prod.fst =
      if a ∈ m.map Prod.fst then m.map Prod.fst else m.map Prod.fst ++ [a] := by
  induction m with
  | nil => simp [set]
  | cons e rest ih =>
      obtain ⟨k, v⟩ := e
      by_cases h : k = a
      · simp [set, h]
      · by_cases hm : a ∈ rest.map Prod.fst <;>
          simp [set, h, ih, hm, Ne.symm h]

theorem KeysNodup.set {m : AMap α β} (h : m.KeysNodup) (a : α) (b : β) :
    (m.set a b).KeysNodup := by
  unfold KeysNodup at h ⊢
  rw [keys_set]
  by_cases hm : a ∈ m.map Prod.fst
  · simpa [hm] using h
  · simp only [hm, if_false]
    exact List.Nodup.append h (List.nodup_singleton a)
      (by simpa [List.disjoint_singleton] using hm)

theorem keys_del_sublist (m : AMap α β) (a : α) :
    ((m.del a).map Prod.fst).Sublist (m.map Prod.fst) := by
  induction m with
  | nil => simp [del]
  | cons e rest ih =>
      obtain ⟨k, v⟩ := e
      by_cases h : k = a
      · simp only [del, h, if_true, List.map_cons]
        exact ih.cons _
      · simp only [del, h, if_false, List.map_cons]
        exact ih.cons₂ _

theorem KeysNodup.del {m : AMap α β} (h : m.KeysNodup) (a : α) :
    (m.del a).KeysNodup :=
  List.Nodup.sublist (keys_del_sublist m a) h

theorem size_eq_zero_iff (m : AMap α β) : m.size = 0 ↔ m = ([] : AMap α β) :=
  List.length_eq_zero

theorem get_mem {m : AMap α β} {a : α} {b : β} (h : m.get a = some b) :
    (a, b) ∈ m := by
  induction m with
  | nil => simp [get] at h
  | cons e rest ih =>
      obtain ⟨k, v⟩ := e
      by_cases hk : k = a
      · subst hk
        have hv : v = b := by simpa [get] using h
        subst hv
        exact List.mem_cons_self _ _
      · simp only [get, if_neg hk] at h
        exact List.mem_cons_of_mem _ (ih h)

end AMap

/-- Keys of the rooms registry surviving a disconnect form a sublist of
the original keys. -/
theorem disconnectRooms_keys_sublist (sid : String)
    (rooms : AMap String (AMap String PlayerData)) :
    (((disconnectRooms sid rooms).1).map Prod.fst).Sublist (rooms.map Prod.fst) := by
  induction rooms with
  | nil => simp [disconnectRooms]
  | cons e rest ih =>
      obtain ⟨roomId, roomPlayers⟩ := e
      by_cases h : roomPlayers.has sid
      · by_cases hz : (roomPlayers.del sid).size = 0
        · simp only [disconnectRooms, h, hz, if_true, List.map_cons]
          exact ih.cons _
        · simp only [disconnectRooms, h, hz, if_true, if_false, List.map_cons]
          exact ih.cons₂ _
      · simp only [disconnectRooms, h, if_false, List.map_cons]
        exact ih.cons₂ _

/-- Characterisation of the rooms registry after `disconnect`, for
duplicate-free registries: a room keeps its map when the connection was
not a member, keeps the shrunken map when other members remain, and is
dropped when the leaver was the last member. -/
theorem disconnectRooms_get (sid : String)
    (rooms : AMap String (AMap String PlayerData))
    (hw : rooms.KeysNodup) (g : String) :
    ((disconnectRooms sid rooms).1).get g =
      match rooms.get g with
      | none => none
      | some rp =>
          if rp.has sid then
            (if (rp.del sid).size = 0 then none else some (rp.del sid))
          else some rp := by
  induction rooms with
  | nil => simp [disconnectRooms, AMap.get]
  | cons e rest ih =>
      obtain ⟨roomId, roomPlayers⟩ := e
      have hw' : AMap.KeysNodup (rest : AMap String (AMap String PlayerData)) :=
        (List.nodup_cons.mp hw).2
      have hnotin : roomId ∉ rest.map Prod.fst := (List.nodup_cons.mp hw).1
      by_cases hg : roomId = g
      · cases hg
        have hrest2 : ((disconnectRooms sid rest).1).get g = none := by
          rw [AMap.get_eq_none_iff]
          intro hmem
          exact hnotin ((disconnectRooms_keys_sublist sid rest).mem hmem)
        by_cases h : roomPlayers.has sid
        · by_cases hz : (roomPlayers.del sid).size = 0
          · simp [disconnectRooms, h, hz, AMap.get, hrest2]
          · simp [disconnectRooms, h, hz, AMap.get]
        · simp [disconnectRooms, h, AMap.get]
      · by_cases h : roomPlayers.has sid
        · by_cases hz : (roomPlayers.del sid).size = 0
          · simp [disconnectRooms, h, hz, AMap.get, hg, ih hw']
          · simp [disconnectRooms, h, hz, AMap.get, hg, ih hw']
        · simp [disconnectRooms, h, AMap.get, hg, ih hw']

/-! ## Field-preservation lemmas for the generators and handlers -/

theorem generateObstacles_rooms (s : ServerState) (g : String) :
    (generateObstacles s g).1.rooms = s.rooms := by
  unfold generateObstacles
  split <;> rfl

theorem generateObstacles_farm (s : ServerState) (g : String) :
    (generateObstacles s g).1.globalFarmObjects = s.globalFarmObjects := by
  unfold generateObstacles
  split <;> rfl

theorem generateObstacles_nextFarmId (s : ServerState) (g : String) :
    (generateObstacles s g).1.nextFarmId = s.nextFarmId := by
  unfold generateObstacles
  split <;> rfl

theorem generateFarmObjects_rooms (s : ServerState) (g : String)
    (oracle : List (Nat × Pos)) :
    (generateFarmObjects s g oracle).1.rooms = s.rooms := by
  unfold generateFarmObjects
  split <;> dsimp only <;> split <;> first | rfl | (split <;> rfl)

theorem generateFarmObjects_obstacles (s : ServerState) (g : String)
    (oracle : List (Nat × Pos)) :
    (generateFarmObjects s g oracle).1.obstacles = s.obstacles := by
  unfold generateFarmObjects
  split <;> dsimp only <;> split <;> first | rfl | (split <;> rfl)

theorem stepDisconnect_farm (s : ServerState) (sid : String) :
    (stepDisconnect s sid).1.globalFarmObjects = s.globalFarmObjects := rfl

theorem stepDisconnect_obstacles (s : ServerState) (sid : String) :
    (stepDisconnect s sid).1.obstacles = s.obstacles := rfl

/-! ## Claim C5 — self-hit is a complete no-op -/

/-- Claim C5. For every server state and every `playerHit` event whose
shooter and target ids coincide, processing the event leaves the entire
state (rooms, collectibles, obstacles, id counter) unchanged and produces
no outbound notification. -/
theorem selfHit_is_complete_noop (s : ServerState) (sid g pid : String) (now : Int) :
    stepEvent s (Event.playerHit sid g pid pid now) = (s, []) := by
  simp [stepEvent, stepPlayerHit]

/-! ## Claim C1 — the theft rule on a valid hit -/

/-- Claim C1. In a room containing a live target and a shooter with
`shooterId ≠ targetId`, a hit steals `stolen = floor(target.score * 0.5)`
points, adds `20 + stolen` to the shooter's score, sets the target's
score to `max 0 (target.score - stolen)`, marks the target dead with
respawn deadline `now + 3000`, and emits `playerKilled` (to the room and
as an echo) carrying both updated scores and the stolen amount. -/
theorem hit_applies_theft_rule (s : ServerState) (sid g shooterId targetId : String)
    (now : Int) (rp : AMap String PlayerData) (shooter target : PlayerData)
    (hne : shooterId ≠ targetId)
    (hr : s.rooms.get g = some rp)
    (hs : rp.get shooterId = some shooter)
    (ht : rp.get targetId = some target)
    (halive : target.isAlive = true) :
    ((stepEvent s (Event.playerHit sid g shooterId targetId now)).1.rooms.get g).bind
        (fun m => m.get shooterId) =
      some { shooter with score := shooter.score + (20 + Int.fdiv target.score 2) } ∧
    ((stepEvent s (Event.playerHit sid g shooterId targetId now)).1.rooms.get g).bind
        (fun m => m.get targetId) =
      some { target with score := max 0 (target.score - Int.fdiv target.score 2),
                         isAlive := false, respawnTime := some (now + 3000) } ∧
    (stepEvent s (Event.playerHit sid g shooterId targetId now)).2 =
      [⟨Scope.room g, Payload.playerKilled shooterId targetId
          (shooter.score + (20 + Int.fdiv target.score 2))
          (max 0 (target.score - Int.fdiv target.score 2)) (Int.fdiv target.score 2)⟩,
       ⟨Scope.originator, Payload.playerKilled shooterId targetId
          (shooter.score + (20 + Int.fdiv target.score 2))
          (max 0 (target.score - Int.fdiv target.score 2)) (Int.fdiv target.score 2)⟩] := by
  have hmax : (if target.score < Int.fdiv target.score 2 then 0
               else target.score - Int.fdiv target.score 2)
            = max 0 (target.score - Int.fdiv target.score 2) := by
    rcases le_or_lt (Int.fdiv target.score 2) target.score with h | h
    · rw [if_neg (not_lt.mpr h), max_eq_right (sub_nonneg.mpr h)]
    · rw [if_pos h, max_eq_left (sub_nonpos.mpr h.le)]
  refine ⟨?_, ?_, ?_⟩ <;>
    simp [stepEvent, stepPlayerHit, hne, hr, hs, ht, halive, hmax,
      AMap.get_set_self, AMap.get_set_ne _ _ (Ne.symm hne)]

/-- Concrete two-player room exercising the theft rule: shooter `a` at
score 0 and target `b` at score 100, both alive. -/
def hitDemoShooter : PlayerData :=
  { id := "a", name := "A", color := 0, position := ⟨400, 300⟩, velocity := ⟨0, 0⟩,
    score := 0, isAlive := true, respawnTime := none }

/-- The demo target, at score 100. -/
def hitDemoTarget : PlayerData :=
  { hitDemoShooter with id := "b", name := "B", score := 100 }

/-- A server state holding the two demo players in room `r`. -/
def hitDemoState : ServerState :=
  { rooms := [("r", [("a", hitDemoShooter), ("b", hitDemoTarget)])],
    globalFarmObjects := AMap.empty, obstacles := AMap.empty, nextFarmId := 0 }

/-- Witness for C1 at the spec's scenario: target score 100 and shooter
score 0 yield shooter 70 and target 50, with the kill notification
carrying 70, 50 and the stolen 50. -/
theorem hit_applies_theft_rule_witness :
    ((stepEvent hitDemoState (Event.playerHit "a" "r" "a" "b" 0)).1.rooms.get "r").bind
        (fun m => m.get "a") = some { hitDemoShooter with score := 70 } ∧
    ((stepEvent hitDemoState (Event.playerHit "a" "r" "a" "b" 0)).1.rooms.get "r").bind
        (fun m => m.get "b") =
      some { hitDemoTarget with score := 50, isAlive := false, respawnTime := some 3000 } ∧
    (stepEvent hitDemoState (Event.playerHit "a" "r" "a" "b" 0)).2 =
      [⟨Scope.room "r", Payload.playerKilled "a" "b" 70 50 50⟩,
       ⟨Scope.originator, Payload.playerKilled "a" "b" 70 50 50⟩] := by
  have h := hit_applies_theft_rule hitDemoState "a" "r" "a" "b" 0
      [("a", hitDemoShooter), ("b", hitDemoTarget)] hitDemoShooter hitDemoTarget
      (by decide) rfl rfl rfl rfl
  have h50 : Int.fdiv (hitDemoTarget.score) 2 = 50 := by decide
  have hsc : hitDemoTarget.score = 100 := rfl
  have hsh : hitDemoShooter.score = 0 := rfl
  simpa [h50, hsc, hsh] using h

/-! ## Claim C9 — the departure broadcast's name field -/

/-- Every `playerLeft` emission produced by a disconnect names the leaver
and carries `name = none`, because the record is deleted from the room
map before `name` is read back. -/
theorem disconnectRooms_emission_shape (sid : String)
    (rooms : AMap String (AMap String PlayerData)) :
    ∀ em ∈ (disconnectRooms sid rooms).2,
      ∃ g, em = ⟨Scope.room g, Payload.playerLeft sid none⟩ := by
  induction rooms with
  | nil => simp [disconnectRooms]
  | cons e rest ih =>
      obtain ⟨roomId, roomPlayers⟩ := e
      intro em hem
      by_cases h : roomPlayers.has sid
      · by_cases hz : (roomPlayers.del sid).size = 0 <;>
          · simp only [disconnectRooms, h, hz, if_true, if_false, List.mem_cons] at hem
            rcases hem with rfl | hem
            · exact ⟨roomId, by simp [AMap.get_del_self]⟩
            · exact ih em hem
      · simp only [disconnectRooms, h, if_false] at hem
        exact ih em hem

/-- A disconnect emits the `playerLeft` notification in each room the
connection inhabited. -/
theorem disconnectRooms_emits (sid : String)
    (rooms : AMap String (AMap String PlayerData)) (g : String)
    (rp : AMap String PlayerData)
    (hg : rooms.get g = some rp) (hh : rp.has sid) :
    (⟨Scope.room g, Payload.playerLeft sid none⟩ : Emission) ∈
      (disconnectRooms sid rooms).2 := by
  induction rooms with
  | nil => simp [AMap.get] at hg
  | cons e rest ih =>
      obtain ⟨roomId, roomPlayers⟩ := e
      by_cases hk : roomId = g
      · subst hk
        have : roomPlayers = rp := by simpa [AMap.get] using hg
        subst this
        by_cases hz : (roomPlayers.del sid).size = 0 <;>
          simp [disconnectRooms, hh, hz, AMap.get_del_self]
      · have hg' : AMap.get (rest : AMap String (AMap String PlayerData)) g = some rp := by
          simpa [AMap.get, hk] using hg
        by_cases h : roomPlayers.has sid
        · by_cases hz : (roomPlayers.del sid).size = 0 <;>
            simp [disconnectRooms, h, hz, ih hg']
        · simp [disconnectRooms, h, ih hg']

/-- Claim C9. For every disconnect, each departure broadcast the remaining
members receive carries an undefined (`none`) name — the record is
deleted from the room mapping before the name is read — and such a
broadcast is indeed emitted for each room holding the connection. -/
theorem disconnect_departure_name_is_undefined (s : ServerState) (sid : String) :
    (∀ sc pid nm, (⟨sc, Payload.playerLeft pid nm⟩ : Emission) ∈
        (stepEvent s (Event.disconnect sid)).2 → nm = none) ∧
    (∀ g rp, s.rooms.get g = some rp → rp.has sid →
      (⟨Scope.room g, Payload.playerLeft sid none⟩ : Emission) ∈
        (stepEvent s (Event.disconnect sid)).2) := by
  constructor
  · intro sc pid nm hmem
    obtain ⟨g, hg⟩ := disconnectRooms_emission_shape sid s.rooms _ hmem
    cases hg
    rfl
  · intro g rp hg hh
    exact disconnectRooms_emits sid s.rooms g rp hg hh

/-- Witness for C9: in a one-room state holding players `a` and `b`,
disconnecting `a` emits exactly the `playerLeft` broadcast with
`name = none`. -/
theorem disconnect_departure_name_is_undefined_witness :
    (⟨Scope.room "r", Payload.playerLeft "a" none⟩ : Emission) ∈
      (stepEvent hitDemoState (Event.disconnect "a")).2 :=
  (disconnect_departure_name_is_undefined hitDemoState "a").2 "r"
    [("a", hitDemoShooter), ("b", hitDemoTarget)] rfl (by decide)

/-! ## Claim C10 — collection ignores the alive flag -/

/-- Claim C10. A collect event (projectile `farmObjectHit` or proximity
`collectResource`) from a dead room member naming an existing collectible
still succeeds exactly as for a live player: the dead player's score is
credited, the object is removed, and `farmObjectDestroyed` is emitted to
room and originator. -/
theorem dead_player_collects_like_live (s : ServerState) (sid g : String) (oid : Nat)
    (fm : AMap Nat FarmObject) (fo : FarmObject)
    (rp : AMap String PlayerData) (pd : PlayerData)
    (hf : s.globalFarmObjects.get g = some fm)
    (ho : fm.get oid = some fo)
    (hr : s.rooms.get g = some rp)
    (hp : rp.get sid = some pd)
    (hdead : pd.isAlive = false) :
    (((stepEvent s (Event.farmObjectHit sid g oid)).1.rooms.get g).bind
        (fun m => m.get sid) = some { pd with score := pd.score + fo.value } ∧
     ((stepEvent s (Event.farmObjectHit sid g oid)).1.globalFarmObjects.get g).bind
        (fun m => m.get oid) = none ∧
     (stepEvent s (Event.farmObjectHit sid g oid)).2 =
       [⟨Scope.room g, Payload.farmObjectDestroyed oid sid (pd.score + fo.value)⟩,
        ⟨Scope.originator, Payload.farmObjectDestroyed oid sid (pd.score + fo.value)⟩]) ∧
    (((stepEvent s (Event.collectResource sid g oid)).1.rooms.get g).bind
        (fun m => m.get sid) = some { pd with score := pd.score + fo.value } ∧
     ((stepEvent s (Event.collectResource sid g oid)).1.globalFarmObjects.get g).bind
        (fun m => m.get oid) = none ∧
     (stepEvent s (Event.collectResource sid g oid)).2 =
       [⟨Scope.room g, Payload.farmObjectDestroyed oid sid (pd.score + fo.value)⟩,
        ⟨Scope.originator, Payload.farmObjectDestroyed oid sid (pd.score + fo.value)⟩]) := by
  refine ⟨⟨?_, ?_, ?_⟩, ⟨?_, ?_, ?_⟩⟩ <;>
    simp [stepEvent, stepFarmObjectHit, stepCollectResource, hf, ho, hr, hp,
      AMap.get_set_self, AMap.get_del_self]

/-! ## Spawn-loop lemmas -/

/-- Every farm object's value is positive: the type table only holds the
values 5, 1 and 10. -/
theorem mkFarmObject_value_pos (id : Nat) (c : Nat × Pos) :
    0 < (mkFarmObject id c).value := by
  have h3 : c.1 % 3 = 0 ∨ c.1 % 3 = 1 ∨ c.1 % 3 = 2 := by omega
  rcases h3 with h | h | h <;> simp [mkFarmObject, farmTypesAndValues, h]

/-- An object found after the spawn loop existed before, or is a freshly
created object with an id in `[nextId, nextId + n)`. -/
theorem spawnFarmObjects_get (m : AMap Nat FarmObject) (nid : Nat)
    (oracle : List (Nat × Pos)) (n : Nat) (oid : Nat) (fo : FarmObject)
    (h : (spawnFarmObjects m nid oracle n).get oid = some fo) :
    m.get oid = some fo ∨
      (nid ≤ oid ∧ oid < nid + n ∧ ∃ c, fo = mkFarmObject oid c) := by
  induction n generalizing m nid oracle with
  | zero =>
      simp only [spawnFarmObjects] at h
      exact Or.inl h
  | succ n ih =>
      simp only [spawnFarmObjects] at h
      rcases ih _ _ _ h with h1 | ⟨h1, h2, c, hc⟩
      · rw [AMap.get_set] at h1
        by_cases he : nid = oid
        · subst he
          rw [if_pos rfl] at h1
          injection h1 with h1
          exact Or.inr ⟨le_refl _, by omega, _, h1.symm⟩
        · rw [if_neg he] at h1
          exact Or.inl h1
      · exact Or.inr ⟨by omega, by omega, c, hc⟩

/-- The spawn loop never touches ids below the fresh-id counter. -/
theorem spawnFarmObjects_get_lt (m : AMap Nat FarmObject) (nid : Nat)
    (oracle : List (Nat × Pos)) (n : Nat) (oid : Nat) (hlt : oid < nid) :
    (spawnFarmObjects m nid oracle n).get oid = m.get oid := by
  induction n generalizing m nid oracle with
  | zero => rfl
  | succ n ih =>
      simp only [spawnFarmObjects]
      rw [ih _ _ _ (by omega), AMap.get_set_ne _ _ (by omega)]

/-! ## State and trace invariants -/

/-- Destroyed-notification counter: `farmObjectDestroyed` room broadcasts
naming `oid` (the originator echo is the second channel of the same
notification and is not counted separately). -/
def isDestroyedNotif (oid : Nat) (em : Emission) : Bool :=
  match em with
  | ⟨Scope.room _, Payload.farmObjectDestroyed oid2 _ _⟩ => oid2 == oid
  | _ => false

/-- Number of destroyed notifications naming `oid` in an emission list. -/
def dCount (ems : List Emission) (oid : Nat) : Nat :=
  (ems.filter (isDestroyedNotif oid)).length

theorem dCount_append (a b : List Emission) (oid : Nat) :
    dCount (a ++ b) oid = dCount a oid + dCount b oid := by
  simp [dCount, List.filter_append]

/-- Invariant of reachable server states: room keys are duplicate-free
(as in a JavaScript `Map`), scores are non-negative, farm values are
positive, live farm ids are below the fresh-id counter, and a farm id
lives in at most one room. -/
def StateInv (s : ServerState) : Prop :=
  s.rooms.KeysNodup ∧
  (∀ g rp, s.rooms.get g = some rp → ∀ p pd, rp.get p = some pd → 0 ≤ pd.score) ∧
  (∀ g m, s.globalFarmObjects.get g = some m → ∀ oid fo, m.get oid = some fo →
    0 ≤ fo.value ∧ oid < s.nextFarmId) ∧
  (∀ oid g g2 m m2, s.globalFarmObjects.get g = some m →
    s.globalFarmObjects.get g2 = some m2 →
    (m.get oid).isSome → (m2.get oid).isSome → g = g2)

/-- Invariant of a reachable state together with the emissions produced
so far: at most one destroyed notification is ever counted per id, and a
counted id is consumed — below the counter and in no room's farm map. -/
def TraceInv (s : ServerState) (ems : List Emission) : Prop :=
  StateInv s ∧
  (∀ oid, dCount ems oid ≤ 1) ∧
  (∀ oid, 1 ≤ dCount ems oid → oid < s.nextFarmId ∧
    ∀ g m, s.globalFarmObjects.get g = some m → m.get oid = none)

theorem initial_traceInv : TraceInv initialState [] := by
  refine ⟨⟨?_, ?_, ?_, ?_⟩, ?_, ?_⟩ <;>
    simp [initialState, AMap.KeysNodup, AMap.empty, AMap.get, dCount]

/-- Unfolding of `generateFarmObjects` into a single top-level case
split, for reuse in the invariant proofs. -/
theorem generateFarmObjects_eq (s : ServerState) (g : String) (o : List (Nat × Pos)) :
    generateFarmObjects s g o =
      (let fm := if s.globalFarmObjects.has g then s.globalFarmObjects
                 else s.globalFarmObjects.set g AMap.empty
       let m := (fm.get g).getD AMap.empty
       if m.size < 10 then
         ({ s with globalFarmObjects :=
                     fm.set g (spawnFarmObjects m s.nextFarmId o (10 - m.size)),
                   nextFarmId := s.nextFarmId + (10 - m.size) },
          if 0 < 10 - m.size ∧ s.rooms.has g then
            [⟨Scope.room g, Payload.farmObjectsUpdate
                (spawnFarmObjects m s.nextFarmId o (10 - m.size)).values⟩,
             ⟨Scope.originator, Payload.farmObjectsUpdate
                (spawnFarmObjects m s.nextFarmId o (10 - m.size)).values⟩]
          else [])
       else ({ s with globalFarmObjects := fm }, [])) := by
  unfold generateFarmObjects
  by_cases h1 : s.globalFarmObjects.has g
  · by_cases h2 : ((s.globalFarmObjects.get g).getD AMap.empty).size < 10 <;>
      by_cases h3 : s.rooms.has g <;>
      simp [h1, h2, h3]
  · by_cases h2 : (((s.globalFarmObjects.set g AMap.empty).get g).getD AMap.empty).size < 10 <;>
      by_cases h3 : s.rooms.has g <;>
      simp [h1, h2, h3]

/-- Repopulation preserves the state/trace invariant: spawned objects
have positive values and fresh ids, and no destroyed notification is
emitted. -/
theorem generateFarmObjects_traceInv (s : ServerState) (g : String)
    (o : List (Nat × Pos)) (ems : List Emission) (h : TraceInv s ems) :
    TraceInv (generateFarmObjects s g o).1 (ems ++ (generateFarmObjects s g o).2) := by
  obtain ⟨⟨hW, hS, hF, hU⟩, hD1, hD2⟩ := h
  have hfmget : ∀ g2, (if s.globalFarmObjects.has g then s.globalFarmObjects
        else s.globalFarmObjects.set g AMap.empty).get g2 = s.globalFarmObjects.get g2 ∨
      (g2 = g ∧ (if s.globalFarmObjects.has g then s.globalFarmObjects
        else s.globalFarmObjects.set g AMap.empty).get g2 = some AMap.empty ∧
        s.globalFarmObjects.get g2 = none) := by
    intro g2
    by_cases h1 : s.globalFarmObjects.has g
    · simp [h1]
    · rw [if_neg h1, AMap.get_set]
      by_cases h2 : g = g2
      · subst h2
        refine Or.inr ⟨rfl, by simp, ?_⟩
        unfold AMap.has at h1
        cases hx : s.globalFarmObjects.get g
        · rfl
        · rw [hx] at h1; simp at h1
      · simp [h2]
  set fm := if s.globalFarmObjects.has g then s.globalFarmObjects
            else s.globalFarmObjects.set g AMap.empty with hfm
  have hFm : ∀ g2 m, fm.get g2 = some m → ∀ oid fo, m.get oid = some fo →
      0 ≤ fo.value ∧ oid < s.nextFarmId := by
    intro g2 m hg2 oid fo hofo
    rcases hfmget g2 with he | ⟨_, he, _⟩
    · exact hF g2 m (by rw [← he]; exact hg2) oid fo hofo
    · rw [hg2] at he
      injection he with he
      subst he
      simp at hofo
  have hUm : ∀ oid g2 g3 m2 m3, fm.get g2 = some m2 → fm.get g3 = some m3 →
      (m2.get oid).isSome → (m3.get oid).isSome → g2 = g3 := by
    intro oid g2 g3 m2 m3 hg2 hg3 h2 h3
    rcases hfmget g2 with he2 | ⟨_, he2, _⟩
    · rcases hfmget g3 with he3 | ⟨_, he3, _⟩
      · exact hU oid g2 g3 m2 m3 (by rw [← he2]; exact hg2)
          (by rw [← he3]; exact hg3) h2 h3
      · rw [hg3] at he3
        injection he3 with he3
        subst he3
        simp [AMap.get_empty] at h3
    · rw [hg2] at he2
      injection he2 with he2
      subst he2
      simp [AMap.get_empty] at h2
  have hCm : ∀ oid, 1 ≤ dCount ems oid → ∀ g2 m, fm.get g2 = some m →
      m.get oid = none := by
    intro oid hc g2 m hg2
    rcases hfmget g2 with he | ⟨_, he, _⟩
    · exact (hD2 oid hc).2 g2 m (by rw [← he]; exact hg2)
    · rw [hg2] at he
      injection he with he
      subst he
      simp
  rw [generateFarmObjects_eq]
  dsimp only
  rw [← hfm]
  split
  · rename_i hsize
    dsimp only
    set m := (fm.get g).getD AMap.empty with hm
    set k := 10 - m.size with hk
    set m2 := spawnFarmObjects m s.nextFarmId o k with hm2
    have hmget : ∀ oid fo, m.get oid = some fo → 0 ≤ fo.value ∧ oid < s.nextFarmId := by
      intro oid fo hofo
      cases hx : fm.get g with
      | none => rw [hm, hx] at hofo; simp at hofo
      | some mm =>
          refine hFm g mm hx oid fo ?_
          rw [hm, hx] at hofo
          exact hofo
    have hmabs : ∀ oid, 1 ≤ dCount ems oid → m.get oid = none := by
      intro oid hc
      cases hx : fm.get g with
      | none => rw [hm, hx]; simp
      | some mm => rw [hm, hx]; exact hCm oid hc g mm hx
    have hm2get : ∀ oid fo, m2.get oid = some fo →
        0 ≤ fo.value ∧ oid < s.nextFarmId + k := by
      intro oid fo hofo
      rcases spawnFarmObjects_get m s.nextFarmId o k oid fo hofo with h1 | ⟨h1, h2, c, hc⟩
      · obtain ⟨hv, hlt⟩ := hmget oid fo h1
        exact ⟨hv, by omega⟩
      · subst hc
        exact ⟨(mkFarmObject_value_pos oid c).le, h2⟩
    have hemz : ∀ oid, dCount (if 0 < k ∧ s.rooms.has g then
        [(⟨Scope.room g, Payload.farmObjectsUpdate m2.values⟩ : Emission),
         ⟨Scope.originator, Payload.farmObjectsUpdate m2.values⟩] else []) oid = 0 := by
      intro oid
      split <;> simp [dCount, isDestroyedNotif]
    refine ⟨⟨hW, hS, ?_, ?_⟩, ?_, ?_⟩
    · intro g2 mm hg2 oid fo hofo
      rw [AMap.get_set] at hg2
      by_cases hgg : g = g2
      · rw [if_pos hgg] at hg2
        injection hg2 with hg2
        subst hg2
        exact hm2get oid fo hofo
      · rw [if_neg hgg] at hg2
        obtain ⟨hv, hlt⟩ := hFm g2 mm hg2 oid fo hofo
        exact ⟨hv, by dsimp only; omega⟩
    · intro oid g2 g3 mm2 mm3 hg2 hg3 h2 h3
      rw [AMap.get_set] at hg2 hg3
      by_cases hgg2 : g = g2 <;> by_cases hgg3 : g = g3
      · exact hgg2.symm.trans hgg3
      · rw [if_pos hgg2] at hg2
        rw [if_neg hgg3] at hg3
        injection hg2 with hg2
        subst hg2
        obtain ⟨fo, hfo⟩ := Option.isSome_iff_exists.mp h2
        rcases spawnFarmObjects_get m s.nextFarmId o k oid fo hfo with h1 | ⟨h1, _, _, _⟩
        · subst hgg2
          cases hx : fm.get g with
          | none => rw [hm, hx] at h1; simp at h1
          | some mm =>
              refine hUm oid g g3 mm mm3 hx hg3 ?_ h3
              have h1' : mm.get oid = some fo := by
                rw [hm, hx] at h1
                simpa using h1
              rw [h1']
              rfl
        · obtain ⟨fo3, hfo3⟩ := Option.isSome_iff_exists.mp h3
          obtain ⟨_, hlt⟩ := hFm g3 mm3 hg3 oid fo3 hfo3
          omega
      · rw [if_neg hgg2] at hg2
        rw [if_pos hgg3] at hg3
        injection hg3 with hg3
        subst hg3
        obtain ⟨fo, hfo⟩ := Option.isSome_iff_exists.mp h3
        rcases spawnFarmObjects_get m s.nextFarmId o k oid fo hfo with h1 | ⟨h1, _, _, _⟩
        · subst hgg3
          cases hx : fm.get g with
          | none => rw [hm, hx] at h1; simp at h1
          | some mm =>
              refine hUm oid g2 g mm2 mm hg2 hx h2 ?_
              have h1' : mm.get oid = some fo := by
                rw [hm, hx] at h1
                simpa using h1
              rw [h1']
              rfl
        · obtain ⟨fo2, hfo2⟩ := Option.isSome_iff_exists.mp h2
          obtain ⟨_, hlt⟩ := hFm g2 mm2 hg2 oid fo2 hfo2
          omega
      · rw [if_neg hgg2] at hg2
        rw [if_neg hgg3] at hg3
        exact hUm oid g2 g3 mm2 mm3 hg2 hg3 h2 h3
    · intro oid
      rw [dCount_append, hemz oid]
      have := hD1 oid
      omega
    · intro oid hc
      rw [dCount_append, hemz oid] at hc
      obtain ⟨hlt, habs⟩ := hD2 oid (by omega)
      refine ⟨by dsimp only; omega, ?_⟩
      intro g2 mm hg2
      rw [AMap.get_set] at hg2
      by_cases hgg : g = g2
      · rw [if_pos hgg] at hg2
        injection hg2 with hg2
        subst hg2
        rw [hm2, spawnFarmObjects_get_lt _ _ _ _ _ hlt]
        exact hmabs oid (by omega)
      · rw [if_neg hgg] at hg2
        exact hCm oid (by omega) g2 mm hg2
  · dsimp only
    rw [List.append_nil]
    exact ⟨⟨hW, hS, hFm, hUm⟩, hD1, fun oid hc =>
      ⟨(hD2 oid hc).1, fun g2 m hg2 => hCm oid hc g2 m hg2⟩⟩

/-- The invariant `TraceInv` only reads the rooms, farm registry and id counter. -/
theorem traceInv_of_fields (s s2 : ServerState) (ems : List Emission)
    (hrooms : s2.rooms = s.rooms)
    (hfarm : s2.globalFarmObjects = s.globalFarmObjects)
    (hnid : s2.nextFarmId = s.nextFarmId) (h : TraceInv s ems) : TraceInv s2 ems := by
  unfold TraceInv StateInv at h ⊢
  rw [hrooms, hfarm, hnid]
  exact h

/-- Appending emissions holding no destroyed notification preserves the
trace invariant. -/
theorem traceInv_append_clean (s : ServerState) (ems extra : List Emission)
    (h : TraceInv s ems) (hclean : ∀ oid, dCount extra oid = 0) :
    TraceInv s (ems ++ extra) := by
  refine ⟨h.1, ?_, ?_⟩
  · intro oid
    rw [dCount_append, hclean]
    simpa using h.2.1 oid
  · intro oid hc
    rw [dCount_append, hclean] at hc
    exact h.2.2 oid (by simpa using hc)

/-- Replacing one room map with a map of non-negative scores preserves
the trace invariant. -/
theorem rooms_set_traceInv (s : ServerState) (g : String)
    (rp : AMap String PlayerData) (ems : List Emission) (h : TraceInv s ems)
    (hrp : ∀ p pd, rp.get p = some pd → 0 ≤ pd.score) :
    TraceInv { s with rooms := s.rooms.set g rp } ems := by
  obtain ⟨⟨hW, hS, hF, hU⟩, hD1, hD2⟩ := h
  refine ⟨⟨hW.set g rp, ?_, hF, hU⟩, hD1, hD2⟩
  intro g2 rp2 hg2 p pd hp
  rw [AMap.get_set] at hg2
  by_cases hgg : g = g2
  · rw [if_pos hgg] at hg2
    injection hg2 with hg2
    subst hg2
    exact hrp p pd hp
  · rw [if_neg hgg] at hg2
    exact hS g2 rp2 hg2 p pd hp

/-- Handler `joinGame` preserves the trace invariant: a new member starts at
score 0, an existing member is untouched, and the generated sync
emissions contain no destroyed notification. -/
theorem stepJoinGame_traceInv (s : ServerState) (sid g nm : String) (col : Int)
    (o : List (Nat × Pos)) (ems : List Emission) (h : TraceInv s ems) :
    TraceInv (stepJoinGame s sid g nm col o).1
      (ems ++ (stepJoinGame s sid g nm col o).2) := by
  have hs1 : TraceInv (if s.rooms.has g then s
      else { s with rooms := s.rooms.set g AMap.empty }) ems := by
    split
    · exact h
    · exact rooms_set_traceInv s g AMap.empty ems h (by intro p pd hp; simp at hp)
  set s1 := if s.rooms.has g then s else { s with rooms := s.rooms.set g AMap.empty }
    with hs1def
  unfold stepJoinGame
  rw [← hs1def]
  dsimp only
  cases hmatch : s1.rooms.get g with
  | none =>
      dsimp only
      rw [List.append_nil]
      exact hs1
  | some rp0 =>
      dsimp only
      set roomPlayers := if rp0.has sid then rp0 else rp0.set sid (newPlayer sid nm col)
        with hrpdef
      have hrp0 : ∀ p pd, rp0.get p = some pd → 0 ≤ pd.score :=
        fun p pd hp => hs1.1.2.1 g rp0 hmatch p pd hp
      have hroom : ∀ p pd, roomPlayers.get p = some pd → 0 ≤ pd.score := by
        intro p pd hp
        rw [hrpdef] at hp
        by_cases hh : rp0.has sid
        · rw [if_pos hh] at hp
          exact hrp0 p pd hp
        · rw [if_neg hh, AMap.get_set] at hp
          by_cases hpp : sid = p
          · rw [if_pos hpp] at hp
            injection hp with hp
            subst hp
            simp [newPlayer]
          · rw [if_neg hpp] at hp
            exact hrp0 p pd hp
      have hs2 : TraceInv { s1 with rooms := s1.rooms.set g roomPlayers } ems :=
        rooms_set_traceInv s1 g roomPlayers ems hs1 hroom
      have hog : TraceInv (generateObstacles { s1 with rooms := s1.rooms.set g roomPlayers } g).1 ems :=
        traceInv_of_fields _ _ ems (generateObstacles_rooms _ _)
          (generateObstacles_farm _ _) (generateObstacles_nextFarmId _ _) hs2
      have hgf := generateFarmObjects_traceInv
        (generateObstacles { s1 with rooms := s1.rooms.set g roomPlayers } g).1 g o ems hog
      set og := generateObstacles { s1 with rooms := s1.rooms.set g roomPlayers } g
      set gf := generateFarmObjects og.1 g o with hgfdef
      have hclean : ∀ oid, dCount
          ([(⟨Scope.originator, Payload.currentPlayers roomPlayers.values⟩ : Emission),
            ⟨Scope.originator, Payload.obstaclesUpdate og.2⟩] ++
           (match gf.1.globalFarmObjects.get g with
            | some m => [(⟨Scope.originator, Payload.farmObjectsUpdate m.values⟩ : Emission)]
            | none => []) ++
           [(⟨Scope.room g, Payload.playerJoined sid nm col ⟨400, 300⟩ ⟨0, 0⟩ 0 true⟩ : Emission)]) oid = 0 := by
        intro oid
        cases gf.1.globalFarmObjects.get g <;>
          simp [dCount, isDestroyedNotif, List.filter_append]
      rw [← List.append_assoc]
      exact traceInv_append_clean gf.1 (ems ++ gf.2) _ hgf hclean

/-- Handler `playerMove` preserves the trace invariant: the movement update never
touches a score, and only a movement broadcast is emitted. -/
theorem stepPlayerMove_traceInv (s : ServerState) (sid g : String) (pos : Pos)
    (vel : Option Pos) (ems : List Emission) (h : TraceInv s ems) :
    TraceInv (stepPlayerMove s sid g pos vel).1
      (ems ++ (stepPlayerMove s sid g pos vel).2) := by
  refine traceInv_append_clean _ ems _ ?_
    (by intro oid; simp [dCount, isDestroyedNotif, stepPlayerMove])
  unfold stepPlayerMove
  dsimp only
  cases hm : s.rooms.get g with
  | none => exact h
  | some rp =>
      dsimp only
      cases hp : rp.get sid with
      | none => exact h
      | some player =>
          dsimp only
          refine rooms_set_traceInv s g _ ems h ?_
          intro p pd hpg
          rw [AMap.get_set] at hpg
          by_cases hss : sid = p
          · rw [if_pos hss] at hpg
            injection hpg with hpg
            subst hpg
            have hsc := h.1.2.1 g rp hm sid player hp
            cases vel <;> simpa using hsc
          · rw [if_neg hss] at hpg
            exact h.1.2.1 g rp hm p pd hpg

/-- Handler `playerShoot` preserves the trace invariant: pure relay. -/
theorem stepPlayerShoot_traceInv (s : ServerState) (sid g : String)
    (dir pos : Pos) (ems : List Emission) (h : TraceInv s ems) :
    TraceInv (stepPlayerShoot s sid g dir pos).1
      (ems ++ (stepPlayerShoot s sid g dir pos).2) :=
  traceInv_append_clean _ ems _ h
    (by intro oid; simp [dCount, isDestroyedNotif, stepPlayerShoot])

/-- The respawn callback preserves the trace invariant: it only flips the
alive flag and moves the player. -/
theorem stepRespawnTimer_traceInv (s : ServerState) (g tg : String) (pos : Pos)
    (ems : List Emission) (h : TraceInv s ems) :
    TraceInv (stepRespawnTimer s g tg pos).1
      (ems ++ (stepRespawnTimer s g tg pos).2) := by
  unfold stepRespawnTimer
  cases hm : s.rooms.get g with
  | none =>
      dsimp only
      rw [List.append_nil]
      exact h
  | some rp =>
      dsimp only
      cases hp : rp.get tg with
      | none =>
          dsimp only
          rw [List.append_nil]
          exact h
      | some player =>
          dsimp only
          refine traceInv_append_clean _ ems _ ?_
            (by intro oid; simp [dCount, isDestroyedNotif])
          refine rooms_set_traceInv s g _ ems h ?_
          intro p pd hpg
          rw [AMap.get_set] at hpg
          by_cases hss : tg = p
          · rw [if_pos hss] at hpg
            injection hpg with hpg
            subst hpg
            simpa using h.1.2.1 g rp hm tg player hp
          · rw [if_neg hss] at hpg
            exact h.1.2.1 g rp hm p pd hpg

/-- Handler `disconnect` preserves the trace invariant: surviving room maps are
shrunken originals and only departure broadcasts are emitted. -/
theorem stepDisconnect_traceInv (s : ServerState) (sid : String)
    (ems : List Emission) (h : TraceInv s ems) :
    TraceInv (stepDisconnect s sid).1 (ems ++ (stepDisconnect s sid).2) := by
  obtain ⟨⟨hW, hS, hF, hU⟩, hD1, hD2⟩ := h
  have hclean : ∀ oid, dCount (disconnectRooms sid s.rooms).2 oid = 0 := by
    intro oid
    rw [dCount, List.length_eq_zero, List.filter_eq_nil]
    intro em hem
    obtain ⟨g, hg⟩ := disconnectRooms_emission_shape sid s.rooms em hem
    subst hg
    simp [isDestroyedNotif]
  refine traceInv_append_clean _ ems _ ?_ hclean
  refine ⟨⟨?_, ?_, hF, hU⟩, hD1, hD2⟩
  · exact List.Nodup.sublist (disconnectRooms_keys_sublist sid s.rooms) hW
  · intro g rp hg p pd hp
    rw [show (stepDisconnect s sid).1.rooms = (disconnectRooms sid s.rooms).1 from rfl,
      disconnectRooms_get sid s.rooms hW g] at hg
    cases hm : s.rooms.get g with
    | none => rw [hm] at hg; simp at hg
    | some rp0 =>
        rw [hm] at hg
        dsimp only at hg
        by_cases hh : rp0.has sid
        · rw [if_pos hh] at hg
          by_cases hz : (rp0.del sid).size = 0
          · rw [if_pos hz] at hg; simp at hg
          · rw [if_neg hz] at hg
            injection hg with hg
            subst hg
            rw [AMap.get_del] at hp
            by_cases hsp : sid = p
            · rw [if_pos hsp] at hp; simp at hp
            · rw [if_neg hsp] at hp
              exact hS g rp0 hm p pd hp
        · rw [if_neg hh] at hg
          injection hg with hg
          subst hg
          exact hS g rp0 hm p pd hp

/-- Handler `playerHit` preserves the trace invariant: stolen points are
non-negative (half of a non-negative score), the winner's score grows,
and the victim's is clamped at zero. -/
theorem stepPlayerHit_traceInv (s : ServerState) (g sh tg : String) (now : Int)
    (ems : List Emission) (h : TraceInv s ems) :
    TraceInv (stepPlayerHit s g sh tg now).1
      (ems ++ (stepPlayerHit s g sh tg now).2) := by
  unfold stepPlayerHit
  by_cases hst : sh = tg
  · rw [if_pos hst]
    dsimp only
    rw [List.append_nil]
    exact h
  · rw [if_neg hst]
    cases hm : s.rooms.get g with
    | none =>
        dsimp only
        rw [List.append_nil]
        exact h
    | some rp =>
        dsimp only
        cases hsh : rp.get sh with
        | none =>
            cases htg : rp.get tg <;>
              (dsimp only; rw [List.append_nil]; exact h)
        | some shooter =>
            cases htg : rp.get tg with
            | none =>
                dsimp only
                rw [List.append_nil]
                exact h
            | some target =>
                dsimp only
                by_cases halive : target.isAlive
                · rw [if_pos halive]
                  dsimp only
                  have hsc0 : 0 ≤ shooter.score := h.1.2.1 g rp hm sh shooter hsh
                  have htc0 : 0 ≤ target.score := h.1.2.1 g rp hm tg target htg
                  have hfd : 0 ≤ Int.fdiv target.score 2 :=
                    Int.fdiv_nonneg htc0 (by norm_num)
                  refine traceInv_append_clean _ ems _ ?_
                    (by intro oid; simp [dCount, isDestroyedNotif])
                  refine rooms_set_traceInv s g _ ems h ?_
                  intro p pd hpg
                  rw [AMap.get_set] at hpg
                  by_cases htp : tg = p
                  · rw [if_pos htp] at hpg
                    injection hpg with hpg
                    subst hpg
                    dsimp only
                    split <;> omega
                  · rw [if_neg htp, AMap.get_set] at hpg
                    by_cases hsp : sh = p
                    · rw [if_pos hsp] at hpg
                      injection hpg with hpg
                      subst hpg
                      dsimp only
                      omega
                    · rw [if_neg hsp] at hpg
                      exact h.1.2.1 g rp hm p pd hpg
                · rw [if_neg halive]
                  dsimp only
                  rw [List.append_nil]
                  exact h

/-- Destroyed-notification count of the pair of emissions a successful
collect produces (the room broadcast is counted, the echo is not). -/
theorem dCount_destroyed_pair (g sid : String) (oid oid2 : Nat) (sc : Int) :
    dCount [(⟨Scope.room g, Payload.farmObjectDestroyed oid sid sc⟩ : Emission),
            ⟨Scope.originator, Payload.farmObjectDestroyed oid sid sc⟩] oid2 =
      if oid = oid2 then 1 else 0 := by
  by_cases hx : oid = oid2 <;> simp [dCount, isDestroyedNotif, hx]

/-- Shared argument for the two collect handlers: consuming an existing
object credits a positive value, removes the object everywhere, and
yields the first and only destroyed notification for that id. -/
theorem collect_traceInv (s : ServerState) (sid g : String) (oid : Nat)
    (fm : AMap Nat FarmObject) (fo : FarmObject) (rp : AMap String PlayerData)
    (player : PlayerData) (ems : List Emission) (h : TraceInv s ems)
    (hfm : s.globalFarmObjects.get g = some fm) (ho : fm.get oid = some fo)
    (hrp : s.rooms.get g = some rp) (hpl : rp.get sid = some player) :
    TraceInv
      { s with rooms := s.rooms.set g (rp.set sid
                  { player with score := player.score + fo.value }),
               globalFarmObjects := s.globalFarmObjects.set g (fm.del oid) }
      (ems ++ [⟨Scope.room g, Payload.farmObjectDestroyed oid sid (player.score + fo.value)⟩,
               ⟨Scope.originator, Payload.farmObjectDestroyed oid sid (player.score + fo.value)⟩]) := by
  obtain ⟨⟨hW, hS, hF, hU⟩, hD1, hD2⟩ := h
  have hv : 0 ≤ fo.value ∧ oid < s.nextFarmId := hF g fm hfm oid fo ho
  have hzero : dCount ems oid = 0 := by
    by_contra hne
    have h1 : 1 ≤ dCount ems oid := by omega
    have := (hD2 oid h1).2 g fm hfm
    rw [this] at ho
    cases ho
  refine ⟨⟨hW.set g _, ?_, ?_, ?_⟩, ?_, ?_⟩
  · intro g2 rp2 hg2 p pd hp
    rw [AMap.get_set] at hg2
    by_cases hgg : g = g2
    · rw [if_pos hgg] at hg2
      injection hg2 with hg2
      subst hg2
      rw [AMap.get_set] at hp
      by_cases hsp : sid = p
      · rw [if_pos hsp] at hp
        injection hp with hp
        subst hp
        have := hS g rp hrp sid player hpl
        dsimp only
        omega
      · rw [if_neg hsp] at hp
        exact hS g rp hrp p pd hp
    · rw [if_neg hgg] at hg2
      exact hS g2 rp2 hg2 p pd hp
  · intro g2 mm hg2 oid2 fo2 ho2
    rw [AMap.get_set] at hg2
    by_cases hgg : g = g2
    · rw [if_pos hgg] at hg2
      injection hg2 with hg2
      subst hg2
      rw [AMap.get_del] at ho2
      by_cases hoo : oid = oid2
      · rw [if_pos hoo] at ho2; cases ho2
      · rw [if_neg hoo] at ho2
        exact hF g fm hfm oid2 fo2 ho2
    · rw [if_neg hgg] at hg2
      exact hF g2 mm hg2 oid2 fo2 ho2
  · intro oid2 g2 g3 mm2 mm3 hg2 hg3 h2 h3
    rw [AMap.get_set] at hg2 hg3
    by_cases hgg2 : g = g2 <;> by_cases hgg3 : g = g3
    · exact hgg2.symm.trans hgg3
    · rw [if_pos hgg2] at hg2
      rw [if_neg hgg3] at hg3
      injection hg2 with hg2
      subst hg2
      subst hgg2
      refine hU oid2 g g3 fm mm3 hfm hg3 ?_ h3
      rw [AMap.get_del] at h2
      by_cases hoo : oid = oid2
      · rw [if_pos hoo] at h2; cases h2
      · rw [if_neg hoo] at h2
        exact h2
    · rw [if_neg hgg2] at hg2
      rw [if_pos hgg3] at hg3
      injection hg3 with hg3
      subst hg3
      subst hgg3
      refine hU oid2 g2 g mm2 fm hg2 hfm h2 ?_
      rw [AMap.get_del] at h3
      by_cases hoo : oid = oid2
      · rw [if_pos hoo] at h3; cases h3
      · rw [if_neg hoo] at h3
        exact h3
    · rw [if_neg hgg2] at hg2
      rw [if_neg hgg3] at hg3
      exact hU oid2 g2 g3 mm2 mm3 hg2 hg3 h2 h3
  · intro oid2
    rw [dCount_append, dCount_destroyed_pair]
    by_cases hoo : oid = oid2
    · subst hoo
      rw [if_pos rfl, hzero]
    · rw [if_neg hoo]
      have := hD1 oid2
      omega
  · intro oid2 hc
    rw [dCount_append, dCount_destroyed_pair] at hc
    by_cases hoo : oid = oid2
    · subst hoo
      refine ⟨hv.2, ?_⟩
      intro g2 mm hg2
      rw [AMap.get_set] at hg2
      by_cases hgg : g = g2
      · rw [if_pos hgg] at hg2
        injection hg2 with hg2
        subst hg2
        exact AMap.get_del_self fm oid
      · rw [if_neg hgg] at hg2
        cases hx : mm.get oid with
        | none => rfl
        | some fo2 =>
            exfalso
            exact hgg (hU oid g g2 fm mm hfm hg2 (by rw [ho]; rfl) (by rw [hx]; rfl))
    · rw [if_neg hoo] at hc
      obtain ⟨hlt, habs⟩ := hD2 oid2 (by omega)
      refine ⟨hlt, ?_⟩
      intro g2 mm hg2
      rw [AMap.get_set] at hg2
      by_cases hgg : g = g2
      · rw [if_pos hgg] at hg2
        injection hg2 with hg2
        subst hg2
        rw [AMap.get_del, if_neg hoo]
        exact habs g fm hfm
      · rw [if_neg hgg] at hg2
        exact habs g2 mm hg2

/-- Handler `farmObjectHit` preserves the trace invariant. -/
theorem stepFarmObjectHit_traceInv (s : ServerState) (sid g : String) (oid : Nat)
    (ems : List Emission) (h : TraceInv s ems) :
    TraceInv (stepFarmObjectHit s sid g oid).1
      (ems ++ (stepFarmObjectHit s sid g oid).2) := by
  unfold stepFarmObjectHit
  cases hfm : s.globalFarmObjects.get g with
  | none => dsimp only; rw [List.append_nil]; exact h
  | some fm =>
      dsimp only
      cases ho : fm.get oid with
      | none => dsimp only; rw [List.append_nil]; exact h
      | some fo =>
          dsimp only
          cases hrp : s.rooms.get g with
          | none => dsimp only; rw [List.append_nil]; exact h
          | some rp =>
              dsimp only
              cases hpl : rp.get sid with
              | none => dsimp only; rw [List.append_nil]; exact h
              | some player =>
                  exact collect_traceInv s sid g oid fm fo rp player ems h hfm ho hrp hpl

/-- Handler `collectResource` preserves the trace invariant. -/
theorem stepCollectResource_traceInv (s : ServerState) (sid g : String) (oid : Nat)
    (ems : List Emission) (h : TraceInv s ems) :
    TraceInv (stepCollectResource s sid g oid).1
      (ems ++ (stepCollectResource s sid g oid).2) := by
  unfold stepCollectResource
  cases hfm : s.globalFarmObjects.get g with
  | none => dsimp only; rw [List.append_nil]; exact h
  | some fm =>
      dsimp only
      cases ho : fm.get oid with
      | none => dsimp only; rw [List.append_nil]; exact h
      | some fo =>
          dsimp only
          cases hrp : s.rooms.get g with
          | none => dsimp only; rw [List.append_nil]; exact h
          | some rp =>
              dsimp only
              cases hpl : rp.get sid with
              | none => dsimp only; rw [List.append_nil]; exact h
              | some player =>
                  exact collect_traceInv s sid g oid fm fo rp player ems h hfm ho hrp hpl

/-- One event step preserves the trace invariant. -/
theorem stepEvent_traceInv (s : ServerState) (e : Event) (ems : List Emission)
    (h : TraceInv s ems) :
    TraceInv (stepEvent s e).1 (ems ++ (stepEvent s e).2) := by
  cases e with
  | joinGame sid g nm col o => exact stepJoinGame_traceInv s sid g nm col o ems h
  | playerMove sid g pos vel => exact stepPlayerMove_traceInv s sid g pos vel ems h
  | disconnect sid => exact stepDisconnect_traceInv s sid ems h
  | playerShoot sid g dir pos => exact stepPlayerShoot_traceInv s sid g dir pos ems h
  | playerHit sid g sh tg now => exact stepPlayerHit_traceInv s g sh tg now ems h
  | farmObjectHit sid g oid => exact stepFarmObjectHit_traceInv s sid g oid ems h
  | collectResource sid g oid => exact stepCollectResource_traceInv s sid g oid ems h
  | respawnTimer g tg pos => exact stepRespawnTimer_traceInv s g tg pos ems h
  | repopulateTimer g o => exact generateFarmObjects_traceInv s g o ems h

/-- Running any event list preserves the trace invariant. -/
theorem runFrom_traceInv (events : List Event) (s : ServerState)
    (ems : List Emission) (h : TraceInv s ems) :
    TraceInv (runFrom s events).1 (ems ++ (runFrom s events).2) := by
  induction events generalizing s ems with
  | nil => simpa [runFrom] using h
  | cons e rest ih =>
      have h1 := stepEvent_traceInv s e ems h
      have h2 := ih (stepEvent s e).1 (ems ++ (stepEvent s e).2) h1
      simpa [runFrom, List.append_assoc] using h2

/-- Every state and emission list reachable from the initial registries
satisfies the trace invariant. -/
theorem runTrace_traceInv (events : List Event) :
    TraceInv (runTrace events).1 (runTrace events).2 := by
  have := runFrom_traceInv events initialState [] initial_traceInv
  simpa [runTrace] using this

/-! ## Claim C3 — scores are never negative -/

/-- Claim C3. For every sequence of events applied from the initial state,
every player's score in every room is non-negative (scores are integers
by construction: every mutation the server applies is integer
arithmetic). -/
theorem scores_never_negative (events : List Event) (g : String)
    (rp : AMap String PlayerData) (p : String) (pd : PlayerData)
    (h1 : (runTrace events).1.rooms.get g = some rp)
    (h2 : rp.get p = some pd) : 0 ≤ pd.score :=
  (runTrace_traceInv events).1.2.1 g rp h1 p pd h2

/-- Witness for C3: after a join, the joined player's recorded score is
non-negative (it is 0). -/
theorem scores_never_negative_witness :
    (runTrace [Event.joinGame "a" "r" "n" 0 []]).1.rooms.get "r" =
        some [("a", newPlayer "a" "n" 0)] ∧
    AMap.get [("a", newPlayer "a" "n" 0)] "a" = some (newPlayer "a" "n" 0) ∧
    0 ≤ (newPlayer "a" "n" 0).score :=
  ⟨rfl, rfl,
   scores_never_negative [Event.joinGame "a" "r" "n" 0 []] "r"
     [("a", newPlayer "a" "n" 0)] "a" (newPlayer "a" "n" 0) rfl rfl⟩

/-! ## Claim C2 — exactly-once consumption of a collectible -/

/-- Claim C2. Per collectible id, at most one collect ever succeeds:
(i) a collect (projectile or proximity) naming an id absent from the
room's farm map is a complete no-op with no emission; (ii) the two
collect handlers have identical semantics; (iii) a successful collect
removes the object and credits its value, emitting the destroyed
notification; (iv) along every trace from the initial state, at most one
destroyed notification is produced per id. -/
theorem collectible_consumed_exactly_once :
    (∀ (s : ServerState) (sid g : String) (oid : Nat),
      (∀ fm, s.globalFarmObjects.get g = some fm → fm.get oid = none) →
      stepEvent s (Event.farmObjectHit sid g oid) = (s, []) ∧
      stepEvent s (Event.collectResource sid g oid) = (s, [])) ∧
    (∀ (s : ServerState) (sid g : String) (oid : Nat),
      stepEvent s (Event.farmObjectHit sid g oid) =
        stepEvent s (Event.collectResource sid g oid)) ∧
    (∀ (s : ServerState) (sid g : String) (oid : Nat) (fm : AMap Nat FarmObject)
       (fo : FarmObject) (rp : AMap String PlayerData) (player : PlayerData),
      s.globalFarmObjects.get g = some fm → fm.get oid = some fo →
      s.rooms.get g = some rp → rp.get sid = some player →
      (stepEvent s (Event.farmObjectHit sid g oid)).1.globalFarmObjects.get g =
        some (fm.del oid) ∧
      (fm.del oid).get oid = none ∧
      ((stepEvent s (Event.farmObjectHit sid g oid)).1.rooms.get g).bind
        (fun m => m.get sid) = some { player with score := player.score + fo.value } ∧
      (stepEvent s (Event.farmObjectHit sid g oid)).2 =
        [⟨Scope.room g, Payload.farmObjectDestroyed oid sid (player.score + fo.value)⟩,
         ⟨Scope.originator, Payload.farmObjectDestroyed oid sid (player.score + fo.value)⟩]) ∧
    (∀ (events : List Event) (oid : Nat), dCount (runTrace events).2 oid ≤ 1) := by
  refine ⟨?_, ?_, ?_, ?_⟩
  · intro s sid g oid habs
    constructor <;>
      · simp only [stepEvent, stepFarmObjectHit, stepCollectResource]
        cases hfm : s.globalFarmObjects.get g with
        | none => rfl
        | some fm =>
            dsimp only
            rw [habs fm hfm]
  · intro s sid g oid
    rfl
  · intro s sid g oid fm fo rp player hfm ho hrp hpl
    refine ⟨?_, ?_, ?_, ?_⟩ <;>
      simp [stepEvent, stepFarmObjectHit, hfm, ho, hrp, hpl,
        AMap.get_set_self, AMap.get_del_self]
  · intro events oid
    exact (runTrace_traceInv events).2.1 oid

/-- A one-object, one-player state for exercising consumption. -/
def collectDemoObj : FarmObject :=
  { id := 0, position := ⟨0, 0⟩, type := "gem", value := 10 }

/-- Both demo players above plus a single collectible with id 0. -/
def collectDemoState : ServerState :=
  { rooms := [("r", [("a", hitDemoShooter)])],
    globalFarmObjects := [("r", [(0, collectDemoObj)])],
    obstacles := AMap.empty, nextFarmId := 1 }

/-- Witness for C2: a collect on a missing id is a no-op; consuming the
demo object removes it, credits 10 points, and the consuming trace
carries exactly one destroyed notification for id 0. -/
theorem collectible_consumed_exactly_once_witness :
    stepEvent initialState (Event.farmObjectHit "a" "r" 5) = (initialState, []) ∧
    (stepEvent collectDemoState (Event.farmObjectHit "a" "r" 0)).1.globalFarmObjects.get "r" =
      some AMap.empty ∧
    ((stepEvent collectDemoState (Event.farmObjectHit "a" "r" 0)).1.rooms.get "r").bind
      (fun m => m.get "a") = some { hitDemoShooter with score := 10 } ∧
    dCount (runTrace [Event.joinGame "a" "r" "n" 0 [(2, ⟨0, 0⟩)],
                      Event.farmObjectHit "a" "r" 0,
                      Event.farmObjectHit "a" "r" 0]).2 0 ≤ 1 := by
  have h1 := (collectible_consumed_exactly_once.1 initialState "a" "r" 5
    (by intro fm hfm; exact absurd hfm (by simp [initialState]))).1
  have h3 := collectible_consumed_exactly_once.2.2.1 collectDemoState "a" "r" 0
    [(0, collectDemoObj)] collectDemoObj [("a", hitDemoShooter)] hitDemoShooter
    rfl rfl rfl rfl
  have h4 := collectible_consumed_exactly_once.2.2.2
    [Event.joinGame "a" "r" "n" 0 [(2, ⟨0, 0⟩)],
     Event.farmObjectHit "a" "r" 0,
     Event.farmObjectHit "a" "r" 0] 0
  refine ⟨h1, ?_, ?_, h4⟩
  · have := h3.1
    simpa [AMap.del, collectDemoObj] using this
  · have := h3.2.2.1
    simpa [collectDemoObj, hitDemoShooter] using this

/-- Room lookup after a `joinGame`: other rooms are untouched; the joined
room keeps its map, extended with the default record when the connection
was not yet a member. -/
theorem stepJoinGame_rooms_get (s : ServerState) (sid g2 nm : String) (col : Int)
    (o : List (Nat × Pos)) (g : String) :
    (g2 ≠ g → (stepJoinGame s sid g2 nm col o).1.rooms.get g = s.rooms.get g) ∧
    (∀ rp0, g2 = g → s.rooms.get g = some rp0 →
      (stepJoinGame s sid g2 nm col o).1.rooms.get g =
        some (if rp0.has sid then rp0 else rp0.set sid (newPlayer sid nm col))) := by
  constructor
  · intro hne
    unfold stepJoinGame
    dsimp only
    by_cases hh : s.rooms.has g2
    · rw [if_pos hh]
      cases hm : s.rooms.get g2 with
      | none => rfl
      | some rp0 =>
          dsimp only
          rw [show ∀ st : ServerState,
                (generateFarmObjects (generateObstacles st g2).1 g2 o).1.rooms = st.rooms
              from fun st => by rw [generateFarmObjects_rooms, generateObstacles_rooms]]
          dsimp only
          exact AMap.get_set_ne _ _ hne
    · rw [if_neg hh]
      dsimp only
      rw [show ({ s with rooms := s.rooms.set g2 AMap.empty } : ServerState).rooms.get g2
            = some AMap.empty from AMap.get_set_self _ _ _]
      dsimp only
      rw [show ∀ st : ServerState,
            (generateFarmObjects (generateObstacles st g2).1 g2 o).1.rooms = st.rooms
          from fun st => by rw [generateFarmObjects_rooms, generateObstacles_rooms]]
      dsimp only
      rw [AMap.get_set_ne _ _ hne, AMap.get_set_ne _ _ hne]
  · intro rp0 hgg hm
    subst hgg
    have hh : s.rooms.has g2 := by rw [AMap.has, hm]; rfl
    unfold stepJoinGame
    dsimp only
    rw [if_pos hh]
    rw [show s.rooms.get g2 = some rp0 from hm]
    dsimp only
    rw [show ∀ st : ServerState,
          (generateFarmObjects (generateObstacles st g2).1 g2 o).1.rooms = st.rooms
        from fun st => by rw [generateFarmObjects_rooms, generateObstacles_rooms]]
    dsimp only
    exact AMap.get_set_self _ _ _

/-! ## Claim C4 — dead targets, absent parties, and vanished respawns -/

/-- Claim C4. (i) A hit on a target already marked dead mutates nothing
and emits nothing; (ii) a hit whose shooter or target (or room) is
absent is a complete no-op; (iii) the respawn timer is a no-op when the
room or the target has vanished; (iv) under every event other than the
player's own respawn timer, a dead player in a duplicate-free registry
either stays dead or leaves the room — only the respawn step revives it,
so no hit can succeed on the player until then. -/
theorem dead_target_is_protected (s : ServerState) :
    (∀ (sid g sh tg : String) (now : Int) (rp : AMap String PlayerData)
       (tgD : PlayerData), s.rooms.get g = some rp → rp.get tg = some tgD →
       tgD.isAlive = false →
       stepEvent s (Event.playerHit sid g sh tg now) = (s, [])) ∧
    (∀ (sid g sh tg : String) (now : Int),
       (s.rooms.get g = none ∨
         (∃ rp, s.rooms.get g = some rp ∧ (rp.get sh = none ∨ rp.get tg = none))) →
       stepEvent s (Event.playerHit sid g sh tg now) = (s, [])) ∧
    (∀ (g tg : String) (pos : Pos),
       (s.rooms.get g = none ∨ (∃ rp, s.rooms.get g = some rp ∧ rp.get tg = none)) →
       stepEvent s (Event.respawnTimer g tg pos) = (s, [])) ∧
    (∀ (g tg : String) (rp : AMap String PlayerData) (tgD : PlayerData),
       s.rooms.KeysNodup → s.rooms.get g = some rp → rp.get tg = some tgD →
       tgD.isAlive = false →
       ∀ e : Event, (∀ pos, e ≠ Event.respawnTimer g tg pos) →
       ∀ (rp2 : AMap String PlayerData) (tgD2 : PlayerData),
         (stepEvent s e).1.rooms.get g = some rp2 → rp2.get tg = some tgD2 →
         tgD2.isAlive = false) := by
  refine ⟨?_, ?_, ?_, ?_⟩
  · intro sid g sh tg now rp tgD hr ht hd
    by_cases hst : sh = tg
    · simp [stepEvent, stepPlayerHit, hst]
    · simp only [stepEvent, stepPlayerHit, if_neg hst]
      rw [hr]
      dsimp only
      cases hsh : rp.get sh with
      | none => rw [ht]
      | some shooter =>
          rw [ht]
          dsimp only
          rw [if_neg (by rw [hd]; exact Bool.false_ne_true)]
  · intro sid g sh tg now habs
    by_cases hst : sh = tg
    · simp [stepEvent, stepPlayerHit, hst]
    · simp only [stepEvent, stepPlayerHit, if_neg hst]
      rcases habs with hr | ⟨rp, hr, habs2⟩
      · rw [hr]
      · rw [hr]
        dsimp only
        rcases habs2 with hsh | htg
        · rw [hsh]
          cases rp.get tg <;> rfl
        · rw [htg]
          cases rp.get sh <;> rfl
  · intro g tg pos habs
    rcases habs with hr | ⟨rp, hr, htg⟩
    · simp only [stepEvent, stepRespawnTimer]
      rw [hr]
    · simp only [stepEvent, stepRespawnTimer]
      rw [hr]
      dsimp only
      rw [htg]
  · intro g tg rp tgD hW hr ht hd e hne rp2 tgD2 h2 h3
    have hbase : ∀ (rpx : AMap String PlayerData) (pdx : PlayerData),
        s.rooms.get g = some rpx → rpx.get tg = some pdx → pdx.isAlive = false := by
      intro rpx pdx hx hy
      rw [hr] at hx
      injection hx with hx
      subst hx
      rw [ht] at hy
      injection hy with hy
      subst hy
      exact hd
    have hset2 : ∀ (g2 : String) (rpx : AMap String PlayerData)
        (p1 : String) (pd1 : PlayerData) (p2 : String) (pd2 : PlayerData),
        (g2 = g → s.rooms.get g2 = some rpx) →
        (g2 = g → p1 = tg → pd1.isAlive = false) →
        (g2 = g → p2 = tg → pd2.isAlive = false) →
        (s.rooms.set g2 ((rpx.set p1 pd1).set p2 pd2)).get g = some rp2 →
        rp2.get tg = some tgD2 → tgD2.isAlive = false := by
      intro g2 rpx p1 pd1 p2 pd2 hrx hpd1 hpd2 hx hy
      rw [AMap.get_set] at hx
      by_cases hgg : g2 = g
      · rw [if_pos hgg] at hx
        injection hx with hx
        subst hx
        rw [AMap.get_set] at hy
        by_cases hp2 : p2 = tg
        · rw [if_pos hp2] at hy
          injection hy with hy
          subst hy
          exact hpd2 hgg hp2
        · rw [if_neg hp2, AMap.get_set] at hy
          by_cases hp1 : p1 = tg
          · rw [if_pos hp1] at hy
            injection hy with hy
            subst hy
            exact hpd1 hgg hp1
          · rw [if_neg hp1] at hy
            have hrx2 := hrx hgg
            rw [hgg] at hrx2
            rw [hr] at hrx2
            injection hrx2 with hrx2
            subst hrx2
            exact hbase rp tgD2 hr hy
      · rw [if_neg hgg] at hx
        exact hbase rp2 tgD2 hx hy
    have hset1 : ∀ (g2 : String) (rpx : AMap String PlayerData)
        (p : String) (pd2 : PlayerData),
        (g2 = g → s.rooms.get g2 = some rpx) →
        (g2 = g → p = tg → pd2.isAlive = false) →
        (s.rooms.set g2 (rpx.set p pd2)).get g = some rp2 →
        rp2.get tg = some tgD2 → tgD2.isAlive = false := by
      intro g2 rpx p pd2 hrx hpd hx hy
      rw [AMap.get_set] at hx
      by_cases hgg : g2 = g
      · rw [if_pos hgg] at hx
        injection hx with hx
        subst hx
        rw [AMap.get_set] at hy
        by_cases hp : p = tg
        · rw [if_pos hp] at hy
          injection hy with hy
          subst hy
          exact hpd hgg hp
        · rw [if_neg hp] at hy
          have hrx2 := hrx hgg
          rw [hgg] at hrx2
          rw [hr] at hrx2
          injection hrx2 with hrx2
          subst hrx2
          exact hbase rp tgD2 hr hy
      · rw [if_neg hgg] at hx
        exact hbase rp2 tgD2 hx hy
    cases e with
    | joinGame sid2 g2 nm col o =>
        simp only [stepEvent] at h2
        by_cases hgg : g2 = g
        · subst hgg
          have hchar := (stepJoinGame_rooms_get s sid2 g2 nm col o g2).2 rp rfl hr
          rw [hchar] at h2
          injection h2 with h2
          subst h2
          by_cases hh : rp.has sid2
          · rw [if_pos hh] at h3
            exact hbase rp tgD2 hr h3
          · rw [if_neg hh, AMap.get_set] at h3
            by_cases hst : sid2 = tg
            · subst hst
              rw [AMap.has, ht] at hh
              simp at hh
            · rw [if_neg hst] at h3
              exact hbase rp tgD2 hr h3
        · have hchar := (stepJoinGame_rooms_get s sid2 g2 nm col o g).1 hgg
          rw [hchar] at h2
          exact hbase rp2 tgD2 h2 h3
    | playerMove sid2 g2 pos vel =>
        revert h2
        simp only [stepEvent, stepPlayerMove]
        cases hm : s.rooms.get g2 with
        | none => exact fun h2 => hbase rp2 tgD2 h2 h3
        | some rpx =>
            dsimp only
            cases hp : rpx.get sid2 with
            | none => exact fun h2 => hbase rp2 tgD2 h2 h3
            | some player =>
                dsimp only
                intro h2
                refine hset1 g2 rpx sid2 _
                  (fun _ => hm) ?_ h2 h3
                intro hgg hst
                subst hgg
                subst hst
                have hrx : rpx = rp := by
                  rw [hr] at hm
                  injection hm with hmv
                  exact hmv.symm
                subst hrx
                have hpd : player = tgD := by
                  rw [ht] at hp
                  injection hp with hpv
                  exact hpv.symm
                subst hpd
                cases vel <;> simpa using hd
    | disconnect sid2 =>
        revert h2
        simp only [stepEvent, stepDisconnect]
        rw [disconnectRooms_get sid2 s.rooms hW g, hr]
        dsimp only
        by_cases hh : rp.has sid2
        · rw [if_pos hh]
          by_cases hz : (rp.del sid2).size = 0
          · rw [if_pos hz]
            intro h2
            cases h2
          · rw [if_neg hz]
            intro h2
            injection h2 with h2
            subst h2
            rw [AMap.get_del] at h3
            by_cases hst : sid2 = tg
            · rw [if_pos hst] at h3
              cases h3
            · rw [if_neg hst] at h3
              exact hbase rp tgD2 hr h3
        · rw [if_neg hh]
          intro h2
          injection h2 with h2
          subst h2
          exact hbase rp tgD2 hr h3
    | playerShoot sid2 g2 dir pos =>
        exact hbase rp2 tgD2 h2 h3
    | playerHit sid2 g2 sh tg2 now =>
        revert h2
        simp only [stepEvent, stepPlayerHit]
        by_cases hst : sh = tg2
        · rw [if_pos hst]
          exact fun h2 => hbase rp2 tgD2 h2 h3
        · rw [if_neg hst]
          cases hm : s.rooms.get g2 with
          | none => exact fun h2 => hbase rp2 tgD2 h2 h3
          | some rpx =>
              dsimp only
              cases hsh : rpx.get sh with
              | none =>
                  cases htg2 : rpx.get tg2 <;>
                    exact fun h2 => hbase rp2 tgD2 h2 h3
              | some shooter =>
                  cases htg2 : rpx.get tg2 with
                  | none => exact fun h2 => hbase rp2 tgD2 h2 h3
                  | some target =>
                      dsimp only
                      by_cases halive : target.isAlive
                      · rw [if_pos halive]
                        dsimp only
                        intro h2
                        refine hset2 g2 rpx sh _ tg2 _
                          (fun _ => hm) ?_
                          (fun _ _ => rfl) h2 h3
                        intro hgg hshtg
                        subst hgg
                        subst hshtg
                        have hrx : rpx = rp := by
                          rw [hr] at hm
                          injection hm with hmv
                          exact hmv.symm
                        subst hrx
                        have hpd : shooter = tgD := by
                          rw [ht] at hsh
                          injection hsh with hpv
                          exact hpv.symm
                        subst hpd
                        simpa using hd
                      · rw [if_neg halive]
                        exact fun h2 => hbase rp2 tgD2 h2 h3
    | farmObjectHit sid2 g2 oid =>
        revert h2
        simp only [stepEvent, stepFarmObjectHit]
        cases hfm : s.globalFarmObjects.get g2 with
        | none => exact fun h2 => hbase rp2 tgD2 h2 h3
        | some fm =>
            dsimp only
            cases ho : fm.get oid with
            | none => exact fun h2 => hbase rp2 tgD2 h2 h3
            | some fo =>
                dsimp only
                cases hm : s.rooms.get g2 with
                | none => exact fun h2 => hbase rp2 tgD2 h2 h3
                | some rpx =>
                    dsimp only
                    cases hp : rpx.get sid2 with
                    | none => exact fun h2 => hbase rp2 tgD2 h2 h3
                    | some player =>
                        dsimp only
                        intro h2
                        refine hset1 g2 rpx sid2 _
                          (fun _ => hm) ?_ h2 h3
                        intro hgg hst
                        subst hgg
                        subst hst
                        have hrx : rpx = rp := by
                          rw [hr] at hm
                          injection hm with hmv
                          exact hmv.symm
                        subst hrx
                        have hpd : player = tgD := by
                          rw [ht] at hp
                          injection hp with hpv
                          exact hpv.symm
                        subst hpd
                        simpa using hd
    | collectResource sid2 g2 oid =>
        revert h2
        simp only [stepEvent, stepCollectResource]
        cases hfm : s.globalFarmObjects.get g2 with
        | none => exact fun h2 => hbase rp2 tgD2 h2 h3
        | some fm =>
            dsimp only
            cases ho : fm.get oid with
            | none => exact fun h2 => hbase rp2 tgD2 h2 h3
            | some fo =>
                dsimp only
                cases hm : s.rooms.get g2 with
                | none => exact fun h2 => hbase rp2 tgD2 h2 h3
                | some rpx =>
                    dsimp only
                    cases hp : rpx.get sid2 with
                    | none => exact fun h2 => hbase rp2 tgD2 h2 h3
                    | some player =>
                        dsimp only
                        intro h2
                        refine hset1 g2 rpx sid2 _
                          (fun _ => hm) ?_ h2 h3
                        intro hgg hst
                        subst hgg
                        subst hst
                        have hrx : rpx = rp := by
                          rw [hr] at hm
                          injection hm with hmv
                          exact hmv.symm
                        subst hrx
                        have hpd : player = tgD := by
                          rw [ht] at hp
                          injection hp with hpv
                          exact hpv.symm
                        subst hpd
                        simpa using hd
    | respawnTimer g2 tg2 pos =>
        revert h2
        simp only [stepEvent, stepRespawnTimer]
        cases hm : s.rooms.get g2 with
        | none => exact fun h2 => hbase rp2 tgD2 h2 h3
        | some rpx =>
            dsimp only
            cases hp : rpx.get tg2 with
            | none => exact fun h2 => hbase rp2 tgD2 h2 h3
            | some player =>
                dsimp only
                intro h2
                refine hset1 g2 rpx tg2 _
                  (fun _ => hm) ?_ h2 h3
                intro hgg htt
                exact absurd (by rw [hgg, htt]) (hne pos)
    | repopulateTimer g2 o =>
        revert h2
        rw [show (stepEvent s (Event.repopulateTimer g2 o)).1.rooms = s.rooms from
          generateFarmObjects_rooms s g2 o]
        exact fun h2 => hbase rp2 tgD2 h2 h3

/-- The demo target, already dead. -/
def deadDemoTarget : PlayerData := { hitDemoTarget with isAlive := false }

/-- Room `r` holding the live shooter `a` and the dead target `b`. -/
def deadDemoState : ServerState :=
  { rooms := [("r", [("a", hitDemoShooter), ("b", deadDemoTarget)])],
    globalFarmObjects := AMap.empty, obstacles := AMap.empty, nextFarmId := 0 }

/-- Witness for C4: a hit on the dead `b` is a no-op, a hit naming the
absent `c` is a no-op, a respawn firing for a vanished room is a no-op,
and after a `playerMove` event `b` is still recorded dead. -/
theorem dead_target_is_protected_witness :
    stepEvent deadDemoState (Event.playerHit "a" "r" "a" "b" 0) = (deadDemoState, []) ∧
    stepEvent deadDemoState (Event.playerHit "a" "r" "a" "c" 0) = (deadDemoState, []) ∧
    stepEvent deadDemoState (Event.respawnTimer "q" "b" ⟨0, 0⟩) = (deadDemoState, []) ∧
    deadDemoTarget.isAlive = false := by
  refine ⟨?_, ?_, ?_, ?_⟩
  · exact (dead_target_is_protected deadDemoState).1 "a" "r" "a" "b" 0
      [("a", hitDemoShooter), ("b", deadDemoTarget)] deadDemoTarget rfl rfl rfl
  · exact (dead_target_is_protected deadDemoState).2.1 "a" "r" "a" "c" 0
      (Or.inr ⟨[("a", hitDemoShooter), ("b", deadDemoTarget)], rfl, Or.inr rfl⟩)
  · exact (dead_target_is_protected deadDemoState).2.2.1 "q" "b" ⟨0, 0⟩ (Or.inl rfl)
  · exact (dead_target_is_protected deadDemoState).2.2.2 "r" "b"
      [("a", hitDemoShooter), ("b", deadDemoTarget)] deadDemoTarget
      (by decide) rfl rfl rfl
      (Event.playerMove "a" "r" ⟨0, 0⟩ none)
      (fun pos h => Event.noConfusion h)
      [("a", { hitDemoShooter with position := ⟨0, 0⟩ }), ("b", deadDemoTarget)]
      deadDemoTarget rfl rfl

/-! ## Claim C7 — the fixed 25-point obstacle layout -/

/-- Rotation of one obstacle point about an L-shape's base, as the code
applies it inside `createLShape`. -/
def rotateObstacle (rotation : Nat) (baseX baseY : ℚ) (ob : Obstacle) : Obstacle :=
  let q := rotatePoint rotation baseX baseY ob.x ob.y
  { ob with x := q.1, y := q.2 }

/-- Claim C7. The obstacle generator is deterministic: a room without a
layout receives the constant `obstacleLayout` of exactly 25 points —
four 5-point L-formations (the rotations of the unrotated 5-point
template about its own base, one per quadrant) plus the five fixed
centre blocks — so every room's obstacle list is identical. -/
theorem obstacle_layout_fixed_25 :
    (∀ (s : ServerState) (g : String), ¬ s.obstacles.has g →
      (generateObstacles s g).2 = obstacleLayout ∧
      (generateObstacles s g).1.obstacles.get g = some obstacleLayout) ∧
    obstacleLayout.length = 25 ∧
    obstacleLayout = createLShape 300 300 0 ++ createLShape 1700 300 1 ++
      createLShape 300 1100 3 ++ createLShape 1700 1100 2 ++ centerObstacleList ∧
    (∀ (baseX baseY : ℚ) (rotation : Nat),
      (createLShape baseX baseY rotation).length = 5 ∧
      createLShape baseX baseY rotation =
        (createLShape baseX baseY 0).map (rotateObstacle rotation baseX baseY)) ∧
    centerObstacleList.length = 5 := by
  refine ⟨?_, rfl, rfl, ?_, rfl⟩
  · intro s g hno
    unfold generateObstacles
    rw [if_neg hno]
    dsimp only
    rw [AMap.get_set_self]
    exact ⟨rfl, rfl⟩
  · intro baseX baseY rotation
    exact ⟨rfl, rfl⟩

/-- Witness for C7: a brand-new room in the initial state receives the
25-point layout. -/
theorem obstacle_layout_fixed_25_witness :
    ¬ initialState.obstacles.has "r" ∧
    (generateObstacles initialState "r").2 = obstacleLayout ∧
    (generateObstacles initialState "r").1.obstacles.get "r" = some obstacleLayout ∧
    obstacleLayout.length = 25 := by
  have h := obstacle_layout_fixed_25.1 initialState "r" (by decide)
  exact ⟨by decide, h.1, h.2, obstacle_layout_fixed_25.2.1⟩

/-- A room holding only the dead player `b`, plus one collectible. -/
def deadCollectState : ServerState :=
  { rooms := [("r", [("b", deadDemoTarget)])],
    globalFarmObjects := [("r", [(0, collectDemoObj)])],
    obstacles := AMap.empty, nextFarmId := 1 }

/-- Witness for C10: the dead player `b` (score 100) consumes the gem
(value 10) and ends at score 110 with the object removed. -/
theorem dead_player_collects_like_live_witness :
    deadDemoTarget.isAlive = false ∧
    ((stepEvent deadCollectState (Event.farmObjectHit "b" "r" 0)).1.rooms.get "r").bind
      (fun m => m.get "b") = some { deadDemoTarget with score := 110 } ∧
    ((stepEvent deadCollectState (Event.farmObjectHit "b" "r" 0)).1.globalFarmObjects.get "r").bind
      (fun m => m.get 0) = none := by
  have h := dead_player_collects_like_live deadCollectState "b" "r" 0
    [(0, collectDemoObj)] collectDemoObj [("b", deadDemoTarget)] deadDemoTarget
    rfl rfl rfl rfl rfl
  refine ⟨rfl, ?_, h.1.2.1⟩
  have h1 := h.1.1
  simpa [deadDemoTarget, hitDemoTarget, hitDemoShooter, collectDemoObj] using h1

/-! ## Claim C6 — room teardown and what a rejoin really reuses

The `disconnect` handler deletes an emptied room from `rooms` but leaves
the room's entries in `obstacles` and `globalFarmObjects` behind, so a
later `joinGame` with the same identifier reuses the prior obstacle
layout entry and every surviving collectible instead of generating a
fresh layout. -/

/-- The spawn oracle of the first join: ten crystals at (600, 600). -/
def c6oracle1 : List (Nat × Pos) := List.replicate 10 (0, ⟨600, 600⟩)

/-- The spawn oracle of the second join: gems at (700, 700). -/
def c6oracle2 : List (Nat × Pos) := List.replicate 10 (2, ⟨700, 700⟩)

/-- Join, consume collectible 0, and leave — the room empties. -/
def c6leaveTrace : List Event :=
  [Event.joinGame "s1" "r" "n" 0 c6oracle1,
   Event.collectResource "s1" "r" 0,
   Event.disconnect "s1"]

/-- The same trace followed by a second join to the same identifier. -/
def c6rejoinTrace : List Event :=
  c6leaveTrace ++ [Event.joinGame "s2" "r" "m" 0 c6oracle2]

/-- Counterexample to C6 as stated: after the last member leaves, the
room is indeed absent from the registry, but the rejoin does not get a
freshly generated collectible population — collectible 1, spawned during
the first room's life at (600, 600), is still present afterwards (only
one new object, id 10, is created to top the population back up to ten),
and the obstacle entry generated for the first room is still registered,
so `generateObstacles` is a no-op on rejoin. -/
theorem room_rejoin_reuses_leftovers :
    (runTrace c6leaveTrace).1.rooms.get "r" = none ∧
    (runTrace c6leaveTrace).1.globalFarmObjects.get "r" ≠ none ∧
    ((runTrace c6rejoinTrace).1.globalFarmObjects.get "r").bind (fun m => m.get 1) =
      some { id := 1, position := ⟨600, 600⟩, type := "crystal", value := 5 } ∧
    ((runTrace c6rejoinTrace).1.globalFarmObjects.get "r").bind (fun m => m.get 10) =
      some { id := 10, position := ⟨700, 700⟩, type := "gem", value := 10 } ∧
    (runTrace c6rejoinTrace).1.obstacles.get "r" = some obstacleLayout := by
  refine ⟨rfl, ?_, rfl, rfl, rfl⟩
  intro h
  cases h

/-- When a room already has a layout, `generateObstacles` returns the
state unchanged. -/
theorem generateObstacles_of_has (s : ServerState) (g : String)
    (h : s.obstacles.has g) : (generateObstacles s g).1 = s := by
  unfold generateObstacles
  rw [if_pos h]

/-- A collectible below the fresh-id counter survives repopulation: the
spawn loop only writes fresh ids. -/
theorem generateFarmObjects_get_old (s : ServerState) (g : String)
    (o : List (Nat × Pos)) (oid : Nat) (fo : FarmObject) (fm : AMap Nat FarmObject)
    (hfm : s.globalFarmObjects.get g = some fm) (ho : fm.get oid = some fo)
    (hlt : oid < s.nextFarmId) :
    ((generateFarmObjects s g o).1.globalFarmObjects.get g).bind
      (fun m => m.get oid) = some fo := by
  have hhas : s.globalFarmObjects.has g := by rw [AMap.has, hfm]; rfl
  rw [generateFarmObjects_eq]
  dsimp only
  rw [if_pos hhas, hfm, Option.getD_some]
  split
  · dsimp only
    rw [AMap.get_set_self, Option.some_bind,
      spawnFarmObjects_get_lt _ _ _ _ _ hlt]
    exact ho
  · dsimp only
    rw [hfm, Option.some_bind]
    exact ho

/-- The obstacle registry after a join that found an existing layout. -/
theorem stepJoinGame_obstacles_of_has (s : ServerState) (sid g nm : String)
    (col : Int) (o : List (Nat × Pos)) (h : s.obstacles.has g) :
    (stepJoinGame s sid g nm col o).1.obstacles = s.obstacles := by
  unfold stepJoinGame
  dsimp only
  by_cases hh : s.rooms.has g
  · rw [if_pos hh]
    cases hm : s.rooms.get g with
    | none => rfl
    | some rp0 =>
        dsimp only
        rw [generateFarmObjects_obstacles,
          generateObstacles_of_has _ _ (by exact h)]
  · rw [if_neg hh]
    dsimp only
    rw [show ({ s with rooms := s.rooms.set g AMap.empty } : ServerState).rooms.get g
          = some AMap.empty from AMap.get_set_self _ _ _]
    dsimp only
    rw [generateFarmObjects_obstacles, generateObstacles_of_has _ _ (by exact h)]

/-- The collectible registry lookup after a join, for a pre-existing
object below the counter. -/
theorem stepJoinGame_farm_get_old (s : ServerState) (sid g nm : String)
    (col : Int) (o : List (Nat × Pos)) (oid : Nat) (fo : FarmObject)
    (fm : AMap Nat FarmObject)
    (hfm : s.globalFarmObjects.get g = some fm) (ho : fm.get oid = some fo)
    (hlt : oid < s.nextFarmId) :
    ((stepJoinGame s sid g nm col o).1.globalFarmObjects.get g).bind
      (fun m => m.get oid) = some fo := by
  unfold stepJoinGame
  dsimp only
  by_cases hh : s.rooms.has g
  · rw [if_pos hh]
    cases hm : s.rooms.get g with
    | none =>
        dsimp only [Option.bind]
        rw [hfm]
        exact ho
    | some rp0 =>
        dsimp only
        refine generateFarmObjects_get_old _ g o oid fo fm ?_ ho ?_
        · rw [generateObstacles_farm]
          exact hfm
        · rw [generateObstacles_nextFarmId]
          exact hlt
  · rw [if_neg hh]
    dsimp only
    rw [show ({ s with rooms := s.rooms.set g AMap.empty } : ServerState).rooms.get g
          = some AMap.empty from AMap.get_set_self _ _ _]
    dsimp only
    refine generateFarmObjects_get_old _ g o oid fo fm ?_ ho ?_
    · rw [generateObstacles_farm]
      exact hfm
    · rw [generateObstacles_nextFarmId]
      exact hlt

/-- Claim C6, amended. When the last member of a room leaves, the room is
removed from the `rooms` registry immediately; however the room's
obstacle and collectible entries are not discarded: a subsequent join
with the same identifier reuses the stored obstacle layout and every
surviving collectible (only topping the population back up), rather than
generating a fresh layout. -/
theorem last_leave_removes_room_but_keeps_layout (s : ServerState) :
    (∀ (sid g : String) (rp : AMap String PlayerData),
      s.rooms.KeysNodup → s.rooms.get g = some rp → rp.has sid →
      (rp.del sid).size = 0 →
      (stepEvent s (Event.disconnect sid)).1.rooms.get g = none) ∧
    (∀ sid : String,
      (stepEvent s (Event.disconnect sid)).1.globalFarmObjects = s.globalFarmObjects ∧
      (stepEvent s (Event.disconnect sid)).1.obstacles = s.obstacles) ∧
    (∀ (sid g nm : String) (col : Int) (o : List (Nat × Pos)),
      s.obstacles.has g →
      (stepEvent s (Event.joinGame sid g nm col o)).1.obstacles = s.obstacles) ∧
    (∀ (sid g nm : String) (col : Int) (o : List (Nat × Pos)) (oid : Nat)
       (fo : FarmObject) (fm : AMap Nat FarmObject),
      s.globalFarmObjects.get g = some fm → fm.get oid = some fo →
      oid < s.nextFarmId →
      ((stepEvent s (Event.joinGame sid g nm col o)).1.globalFarmObjects.get g).bind
        (fun m => m.get oid) = some fo) := by
  refine ⟨?_, ?_, ?_, ?_⟩
  · intro sid g rp hW hr hh hz
    simp only [stepEvent, stepDisconnect]
    rw [disconnectRooms_get sid s.rooms hW g, hr]
    dsimp only
    rw [if_pos hh, if_pos hz]
  · intro sid
    exact ⟨rfl, rfl⟩
  · intro sid g nm col o h
    exact stepJoinGame_obstacles_of_has s sid g nm col o h
  · intro sid g nm col o oid fo fm hfm ho hlt
    exact stepJoinGame_farm_get_old s sid g nm col o oid fo fm hfm ho hlt

/-- A one-member room with a stored layout and one collectible. -/
def c6WitnessState : ServerState :=
  { rooms := [("r", [("a", hitDemoShooter)])],
    globalFarmObjects := [("r", [(0, collectDemoObj)])],
    obstacles := [("r", obstacleLayout)], nextFarmId := 1 }

/-- Witness for the amended C6: disconnecting the only member removes
room `r` from the registry, yet a rejoin finds the old obstacle entry
and the old collectible still present. -/
theorem last_leave_removes_room_but_keeps_layout_witness :
    (stepEvent c6WitnessState (Event.disconnect "a")).1.rooms.get "r" = none ∧
    (stepEvent c6WitnessState (Event.disconnect "a")).1.obstacles = c6WitnessState.obstacles ∧
    (stepEvent c6WitnessState (Event.joinGame "b" "r" "m" 0 [])).1.obstacles =
      c6WitnessState.obstacles ∧
    ((stepEvent c6WitnessState (Event.joinGame "b" "r" "m" 0 [])).1.globalFarmObjects.get "r").bind
      (fun m => m.get 0) = some collectDemoObj := by
  refine ⟨?_, ?_, ?_, ?_⟩
  · exact (last_leave_removes_room_but_keeps_layout c6WitnessState).1 "a" "r"
      [("a", hitDemoShooter)] (by decide) rfl rfl rfl
  · exact ((last_leave_removes_room_but_keeps_layout c6WitnessState).2.1 "a").2
  · exact (last_leave_removes_room_but_keeps_layout c6WitnessState).2.2.1 "b" "r" "m" 0 []
      (by decide)
  · exact (last_leave_removes_room_but_keeps_layout c6WitnessState).2.2.2 "b" "r" "m" 0 []
      0 collectDemoObj [(0, collectDemoObj)] rfl rfl (by decide)

/-! ## Claim C8 — the collectible placement loop

`generateFarmObjects` chooses each new object's position with
`while (!validPosition) { sample; check distance > 120 to every obstacle }`.
The loop below is that rejection sampler over an explicit candidate
stream (the successive values of `Math.random()`); exhausting the stream
(`none`) corresponds to the real loop running forever. -/

/-- One clearance check of the loop body:
`Math.sqrt(dx*dx + dy*dy) > 120`, rendered squared. -/
def farFromObstacle (p : Pos) (ob : Obstacle) : Bool :=
  decide ((p.x - ob.x) ^ 2 + (p.y - ob.y) ^ 2 > 14400)

/-- Validity `roomObstacles.every(obstacle => distance > 120)`. -/
def isValidFarmPosition (obs : List Obstacle) (p : Pos) : Bool :=
  obs.all (fun ob => farFromObstacle p ob)

/-- The `while (!validPosition)` loop: take the first candidate beyond
the clearance of every obstacle; no cap, no relaxation. -/
def placeFarmPosition (obs : List Obstacle) : List Pos → Option Pos
  | [] => none
  | c :: cs => if isValidFarmPosition obs c then some c else placeFarmPosition obs cs

/-- Modelled from the spec: §7 calls "bounded retry then relaxed
placement" required behaviour — no cap or relaxation exists in
`generateFarmObjects`, so this definition follows the spec's words for
comparison: after `cap` rejected attempts the clearance constraint is
relaxed and the next sample is accepted unconditionally. -/
def placeFarmPositionSpec (obs : List Obstacle) : Nat → List Pos → Option Pos
  | _, [] => none
  | 0, c :: _ => some c
  | cap + 1, c :: cs =>
      if isValidFarmPosition obs c then some c else placeFarmPositionSpec obs cap cs

/-- One point of a hypothetical obstacle layout covering the map with an
80-unit grid. -/
def gridObstacle (k j : Nat) : Obstacle :=
  { id := ObstacleId.grid k j, x := 100 + 80 * (k : ℚ), y := 100 + 80 * (j : ℚ),
    part := "grid" }

/-- An 80-spaced grid of obstacles covering the whole sampling region:
every sampled position is within `sqrt(80² + 80²) < 120` of some grid
point, so the clearance check rejects every sample. -/
def denseObstacles : List Obstacle :=
  (List.range 23).flatMap (fun k => (List.range 17).map (fun j => gridObstacle k j))

/-- The region the loop samples from:
`x ∈ [100, 1900], y ∈ [100, 1400]` (closure of
`Math.random() * 1800 + 100` by `Math.random() * 1300 + 100`). -/
def inSampleRegion (p : Pos) : Prop :=
  100 ≤ p.x ∧ p.x ≤ 1900 ∧ 100 ≤ p.y ∧ p.y ≤ 1400

instance (p : Pos) : Decidable (inSampleRegion p) := by
  unfold inSampleRegion
  infer_instance

/-- Against the dense grid, no position of the sampling region passes the
clearance check: the nearest grid point is within 80 on each axis, hence
within squared distance 12800 < 14400. -/
theorem denseObstacles_blocks (p : Pos) (h : inSampleRegion p) :
    isValidFarmPosition denseObstacles p = false := by
  obtain ⟨hx1, hx2, hy1, hy2⟩ := h
  set k : ℤ := ⌊(p.x - 100) / 80⌋ with hkdef
  set j : ℤ := ⌊(p.y - 100) / 80⌋ with hjdef
  have h80 : (0 : ℚ) < 80 := by norm_num
  have hk0 : 0 ≤ k := Int.le_floor.mpr (by
    push_cast
    exact div_nonneg (by linarith) (by norm_num))
  have hk23 : k < 23 := Int.floor_lt.mpr (by
    rw [div_lt_iff h80]
    push_cast
    linarith)
  have hj0 : 0 ≤ j := Int.le_floor.mpr (by
    push_cast
    exact div_nonneg (by linarith) (by norm_num))
  have hj17 : j < 17 := Int.floor_lt.mpr (by
    rw [div_lt_iff h80]
    push_cast
    linarith)
  have hkx1 : (k : ℚ) * 80 ≤ p.x - 100 := by
    have h1 : (k : ℚ) ≤ (p.x - 100) / 80 := Int.floor_le _
    exact (le_div_iff h80).mp h1
  have hkx2 : p.x - 100 < ((k : ℚ) + 1) * 80 := by
    have h1 : (p.x - 100) / 80 < (k : ℚ) + 1 := Int.lt_floor_add_one _
    exact (div_lt_iff h80).mp h1
  have hjy1 : (j : ℚ) * 80 ≤ p.y - 100 := by
    have h1 : (j : ℚ) ≤ (p.y - 100) / 80 := Int.floor_le _
    exact (le_div_iff h80).mp h1
  have hjy2 : p.y - 100 < ((j : ℚ) + 1) * 80 := by
    have h1 : (p.y - 100) / 80 < (j : ℚ) + 1 := Int.lt_floor_add_one _
    exact (div_lt_iff h80).mp h1
  have hck : ((k.toNat : ℚ)) = (k : ℚ) := by
    rw [← Int.cast_natCast, Int.toNat_of_nonneg hk0]
  have hcj : ((j.toNat : ℚ)) = (j : ℚ) := by
    rw [← Int.cast_natCast, Int.toNat_of_nonneg hj0]
  have hmem : gridObstacle k.toNat j.toNat ∈ denseObstacles := by
    unfold denseObstacles
    rw [List.mem_flatMap]
    exact ⟨k.toNat, List.mem_range.mpr (by omega),
      List.mem_map.mpr ⟨j.toNat, List.mem_range.mpr (by omega), rfl⟩⟩
  by_contra hvalid
  have hvalid2 : isValidFarmPosition denseObstacles p = true := by
    cases hb : isValidFarmPosition denseObstacles p
    · exact absurd hb hvalid
    · rfl
  unfold isValidFarmPosition at hvalid2
  have hfar := List.all_eq_true.mp hvalid2 _ hmem
  unfold farFromObstacle gridObstacle at hfar
  have hfar2 := of_decide_eq_true hfar
  dsimp only at hfar2
  rw [hck, hcj] at hfar2
  nlinarith [hfar2, hkx1, hkx2, hjy1, hjy2]

/-- Against the dense grid, the loop rejects every candidate the sampler
can produce: no number of attempts terminates it. -/
theorem placeFarmPosition_denseObstacles_none (cands : List Pos)
    (h : ∀ p ∈ cands, inSampleRegion p) :
    placeFarmPosition denseObstacles cands = none := by
  induction cands with
  | nil => rfl
  | cons c cs ih =>
      have hc := denseObstacles_blocks c (h c (List.mem_cons_self c cs))
      rw [placeFarmPosition, if_neg (by rw [hc]; exact Bool.false_ne_true)]
      exact ih (fun p hp => h p (List.mem_cons_of_mem c hp))

/-- Counterexample to C8 as stated: against the dense 80-grid layout the
code's placement loop rejects an in-region candidate stream outright and
never relaxes (three attempts, no placement), while the spec-modelled
bounded-retry-then-relax loop with cap 2 places the very same stream. -/
theorem placement_cap_and_relaxation_refuted :
    placeFarmPosition denseObstacles (List.replicate 3 ⟨500, 500⟩) = none ∧
    placeFarmPositionSpec denseObstacles 2 (List.replicate 3 ⟨500, 500⟩) =
      some ⟨500, 500⟩ ∧
    isValidFarmPosition denseObstacles ⟨500, 500⟩ = false := by
  have hblock : isValidFarmPosition denseObstacles ⟨500, 500⟩ = false :=
    denseObstacles_blocks ⟨500, 500⟩ (by decide)
  refine ⟨?_, ?_, hblock⟩
  · exact placeFarmPosition_denseObstacles_none _ (by decide)
  · simp [placeFarmPositionSpec, List.replicate, hblock]

/-- Claim C8, amended. The placement loop is unbounded rejection sampling
at the fixed clearance 120: it accepts exactly the first valid sample,
rejects an invalid sample with no attempt cap and no relaxation of the
constraint, does not terminate on a layout (the 80-grid) under which no
in-region position is valid, and can terminate on the actual generated
layout, which leaves valid positions. -/
theorem placement_loop_is_unbounded_rejection :
    (∀ (obs : List Obstacle) (c : Pos) (cs : List Pos),
      isValidFarmPosition obs c = true →
      placeFarmPosition obs (c :: cs) = some c) ∧
    (∀ (obs : List Obstacle) (c : Pos) (cs : List Pos),
      isValidFarmPosition obs c = false →
      placeFarmPosition obs (c :: cs) = placeFarmPosition obs cs) ∧
    (∀ cands : List Pos, (∀ p ∈ cands, inSampleRegion p) →
      placeFarmPosition denseObstacles cands = none) ∧
    isValidFarmPosition obstacleLayout ⟨150, 1390⟩ = true := by
  refine ⟨?_, ?_, ?_, ?_⟩
  · intro obs c cs h
    rw [placeFarmPosition, if_pos h]
  · intro obs c cs h
    rw [placeFarmPosition, if_neg (by rw [h]; exact Bool.false_ne_true)]
  · exact placeFarmPosition_denseObstacles_none
  · simp only [isValidFarmPosition, obstacleLayout, createLShape, lShapeStemPoint,
      lShapeFootPoint, rotatePoint, centerObstacleList, farFromObstacle,
      List.range_succ, List.range_zero, List.map_append, List.map_cons, List.map_nil,
      List.nil_append, List.append_assoc, List.all_append, List.all_cons, List.all_nil,
      Bool.and_eq_true, decide_eq_true_eq]
    norm_num

/-- Witness for the amended C8: the real layout admits a valid position
which the loop accepts at once, while against the dense grid a concrete
in-region candidate is rejected with no relaxation. -/
theorem placement_loop_is_unbounded_rejection_witness :
    isValidFarmPosition obstacleLayout ⟨150, 1390⟩ = true ∧
    placeFarmPosition obstacleLayout [⟨150, 1390⟩] = some ⟨150, 1390⟩ ∧
    placeFarmPosition denseObstacles [⟨500, 500⟩] = none := by
  refine ⟨placement_loop_is_unbounded_rejection.2.2.2, ?_, ?_⟩
  · exact placement_loop_is_unbounded_rejection.1 obstacleLayout ⟨150, 1390⟩ []
      placement_loop_is_unbounded_rejection.2.2.2
  · exact placement_loop_is_unbounded_rejection.2.2.1 [⟨500, 500⟩] (by decide)
